import Mathlib

/-!
# tetra3d: matrix, model-transform and depth-sort pipeline

A shallow embedding of `matrix.go` and `model.go`.  Go's `float64` is read as an exact
scalar: every definition is generic in a linearly ordered field `α`, and the functions
of package `math` that the code calls are passed in as a `FloatMath α` record, so the
definitions stay executable.  The theorems instantiate `α` with the real numbers and
the record with `Real.sqrt`, `Real.sin`, `Real.cos` and `Real.arccos`.  `Perspective`, the
one function whose divisors are not guarded, takes `math.Tan` and `math.Pi` as arguments and
returns entries of type `FloatVal`, which adds the infinities and NaN to the scalars.
-/

set_option linter.unusedSectionVars false

namespace Tetra3d

variable {α : Type} [LinearOrderedField α]

/-- The functions of Go's package `math` used by the embedded code. -/
structure FloatMath (α : Type) where
  /-- The function `math.Sqrt`. -/
  sqrt : α → α
  /-- The function `math.Sin`. -/
  sin : α → α
  /-- The function `math.Cos`. -/
  cos : α → α
  /-- The function `math.Acos` on its domain `[-1, 1]`. -/
  acos : α → α

/-- The type `vector.Vector` of `github.com/kvartborg/vector`: a slice of floats. -/
abbrev Vector (α : Type) := List α

/-- Go's `vect[i]`: component `i` of a vector.  An index past the end, where Go panics, reads
0; the code indexes vectors of three or four components below their length. -/
def Vector.idx (vect : Vector α) (i : Nat) : α := vect.getD i 0

/-- The method `Vector.Magnitude` of `github.com/kvartborg/vector`: the square root of the
sum of the squared components. -/
def Vector.Magnitude (fm : FloatMath α) (a : Vector α) : α :=
  fm.sqrt ((a.map (fun x => x * x)).sum)

/-- The method `Vector.Unit` of `github.com/kvartborg/vector`: a vector whose magnitude is
below `1e-8` is returned as it is, any other is divided by its magnitude. -/
def Vector.Unit (fm : FloatMath α) (a : Vector α) : Vector α :=
  let l := Vector.Magnitude fm a
  if l < 1 / 100000000 then a else a.map (fun x => x / l)

/-- The type `Matrix4`, `[4][4]float64`: `matrix i j` is Go's `matrix[i][j]`. -/
abbrev Matrix4 (α : Type) := Fin 4 → Fin 4 → α

/-- Go's assignment `mat[i][j] = v` on a matrix value. -/
def Matrix4.set (mat : Matrix4 α) (i j : Fin 4) (v : α) : Matrix4 α :=
  fun a b => if a = i ∧ b = j then v else mat a b

/-- The function `NewMatrix4`: the identity matrix. -/
def NewMatrix4 : Matrix4 α :=
  ![![1, 0, 0, 0],
    ![0, 1, 0, 0],
    ![0, 0, 1, 0],
    ![0, 0, 0, 1]]

/-- The function `Translate`. -/
def Translate (x y z : α) : Matrix4 α :=
  let mat : Matrix4 α := NewMatrix4
  let mat := Matrix4.set mat 3 0 x
  let mat := Matrix4.set mat 3 1 y
  let mat := Matrix4.set mat 3 2 z
  mat

/-- The function `Scale`. -/
def Scale (x y z : α) : Matrix4 α :=
  let mat : Matrix4 α := NewMatrix4
  let mat := Matrix4.set mat 0 0 x
  let mat := Matrix4.set mat 1 1 y
  let mat := Matrix4.set mat 2 2 z
  mat

/-- The function `Rotate`: the rotation matrix about the normalised axis `(x, y, z)`. -/
def Rotate (fm : FloatMath α) (x y z : α) (angle : α) : Matrix4 α :=
  let mat : Matrix4 α := NewMatrix4
  let vector := Vector.Unit fm [x, y, z]
  let s := fm.sin angle
  let c := fm.cos angle
  let m := 1 - c
  let mat := Matrix4.set mat 0 0 (m * vector.idx 0 * vector.idx 0 + c)
  let mat := Matrix4.set mat 0 1 (m * vector.idx 0 * vector.idx 1 + vector.idx 2 * s)
  let mat := Matrix4.set mat 0 2 (m * vector.idx 2 * vector.idx 0 - vector.idx 1 * s)
  let mat := Matrix4.set mat 1 0 (m * vector.idx 0 * vector.idx 1 - vector.idx 2 * s)
  let mat := Matrix4.set mat 1 1 (m * vector.idx 1 * vector.idx 1 + c)
  let mat := Matrix4.set mat 1 2 (m * vector.idx 1 * vector.idx 2 + vector.idx 0 * s)
  let mat := Matrix4.set mat 2 0 (m * vector.idx 2 * vector.idx 0 + vector.idx 1 * s)
  let mat := Matrix4.set mat 2 1 (m * vector.idx 1 * vector.idx 2 - vector.idx 0 * s)
  let mat := Matrix4.set mat 2 2 (m * vector.idx 2 * vector.idx 2 + c)
  mat

/-- The method `Matrix4.Transposed`: the two loops assign `new[i][j] = matrix[j][i]` for
every `i` and `j` below 4. -/
def Matrix4.Transposed (matrix : Matrix4 α) : Matrix4 α :=
  fun i j => matrix j i

/-- The method `Matrix4.Row`: row `rowIndex` as a vector of four components. -/
def Matrix4.Row (matrix : Matrix4 α) (rowIndex : Fin 4) : Vector α :=
  [matrix rowIndex 0, matrix rowIndex 1, matrix rowIndex 2, matrix rowIndex 3]

/-- The method `Matrix4.MultVec`. -/
def Matrix4.MultVec (matrix : Matrix4 α) (vect : Vector α) : Vector α :=
  [matrix 0 0 * vect.idx 0 + matrix 1 0 * vect.idx 1 + matrix 2 0 * vect.idx 2 + matrix 3 0,
   matrix 0 1 * vect.idx 0 + matrix 1 1 * vect.idx 1 + matrix 2 1 * vect.idx 2 + matrix 3 1,
   matrix 0 2 * vect.idx 0 + matrix 1 2 * vect.idx 1 + matrix 2 2 * vect.idx 2 + matrix 3 2]

/-- The method `Matrix4.MultVecW`. -/
def Matrix4.MultVecW (matrix : Matrix4 α) (vect : Vector α) : Vector α :=
  [matrix 0 0 * vect.idx 0 + matrix 1 0 * vect.idx 1 + matrix 2 0 * vect.idx 2 + matrix 3 0,
   matrix 0 1 * vect.idx 0 + matrix 1 1 * vect.idx 1 + matrix 2 1 * vect.idx 2 + matrix 3 1,
   matrix 0 2 * vect.idx 0 + matrix 1 2 * vect.idx 1 + matrix 2 2 * vect.idx 2 + matrix 3 2,
   matrix 0 3 * vect.idx 0 + matrix 1 3 * vect.idx 1 + matrix 2 3 * vect.idx 2 + matrix 3 3]

/-- The method `Matrix4.Mult`: the sixteen assignments to `newMat`, written row by row. -/
def Matrix4.Mult (matrix other : Matrix4 α) : Matrix4 α :=
  ![![matrix 0 0 * other 0 0 + matrix 0 1 * other 1 0 + matrix 0 2 * other 2 0 + matrix 0 3 * other 3 0,
      matrix 0 0 * other 0 1 + matrix 0 1 * other 1 1 + matrix 0 2 * other 2 1 + matrix 0 3 * other 3 1,
      matrix 0 0 * other 0 2 + matrix 0 1 * other 1 2 + matrix 0 2 * other 2 2 + matrix 0 3 * other 3 2,
      matrix 0 0 * other 0 3 + matrix 0 1 * other 1 3 + matrix 0 2 * other 2 3 + matrix 0 3 * other 3 3],
    ![matrix 1 0 * other 0 0 + matrix 1 1 * other 1 0 + matrix 1 2 * other 2 0 + matrix 1 3 * other 3 0,
      matrix 1 0 * other 0 1 + matrix 1 1 * other 1 1 + matrix 1 2 * other 2 1 + matrix 1 3 * other 3 1,
      matrix 1 0 * other 0 2 + matrix 1 1 * other 1 2 + matrix 1 2 * other 2 2 + matrix 1 3 * other 3 2,
      matrix 1 0 * other 0 3 + matrix 1 1 * other 1 3 + matrix 1 2 * other 2 3 + matrix 1 3 * other 3 3],
    ![matrix 2 0 * other 0 0 + matrix 2 1 * other 1 0 + matrix 2 2 * other 2 0 + matrix 2 3 * other 3 0,
      matrix 2 0 * other 0 1 + matrix 2 1 * other 1 1 + matrix 2 2 * other 2 1 + matrix 2 3 * other 3 1,
      matrix 2 0 * other 0 2 + matrix 2 1 * other 1 2 + matrix 2 2 * other 2 2 + matrix 2 3 * other 3 2,
      matrix 2 0 * other 0 3 + matrix 2 1 * other 1 3 + matrix 2 2 * other 2 3 + matrix 2 3 * other 3 3],
    ![matrix 3 0 * other 0 0 + matrix 3 1 * other 1 0 + matrix 3 2 * other 2 0 + matrix 3 3 * other 3 0,
      matrix 3 0 * other 0 1 + matrix 3 1 * other 1 1 + matrix 3 2 * other 2 1 + matrix 3 3 * other 3 1,
      matrix 3 0 * other 0 2 + matrix 3 1 * other 1 2 + matrix 3 2 * other 2 2 + matrix 3 3 * other 3 2,
      matrix 3 0 * other 0 3 + matrix 3 1 * other 1 3 + matrix 3 2 * other 2 3 + matrix 3 3 * other 3 3]]

/-- The type `AxisAngle`: a rotation axis and an angle in radians. -/
structure AxisAngle (α : Type) where
  /-- The rotation axis. -/
  Axis : Vector α
  /-- The rotation angle. -/
  Angle : α

/-- The function `NewAxisAngle`. -/
def NewAxisAngle (axis : Vector α) (angle : α) : AxisAngle α :=
  { Axis := axis, Angle := angle }

/-- The rotation matrix of an axis-angle, built the way `Model.Transform` builds it from
`Model.Rotation`. -/
def AxisAngle.toMatrix4 (fm : FloatMath α) (r : AxisAngle α) : Matrix4 α :=
  Rotate fm (r.Axis.idx 0) (r.Axis.idx 1) (r.Axis.idx 2) r.Angle

/-- The method `Matrix4.Decompose`: position, scale and rotation of a matrix.  `math.Acos`
is NaN exactly when its argument lies outside `[-1, 1]`, and the code then sets the angle
to 0; `math.Pow(x, 2)` is `x ^ 2`. -/
def Matrix4.Decompose (fm : FloatMath α) (matrix : Matrix4 α) :
    Vector α × Vector α × AxisAngle α :=
  let position : Vector α := [matrix 3 0, matrix 3 1, matrix 3 2]
  let arg := (matrix 0 0 + matrix 1 1 + matrix 2 2 - 1) / 2
  let angle := if arg < -1 ∨ 1 < arg then 0 else fm.acos arg
  let s := fm.sqrt ((matrix 2 1 - matrix 1 2) ^ 2 + (matrix 0 2 - matrix 2 0) ^ 2
    + (matrix 1 0 - matrix 0 1) ^ 2)
  let s := if |s| ≤ 1 / 10000 then 1 else s
  let axis := Vector.Unit fm [(matrix 1 2 - matrix 2 1) / s, (matrix 2 0 - matrix 0 2) / s,
    (matrix 0 1 - matrix 1 0) / s]
  let axis : Vector α := if Vector.Magnitude fm axis = 0 then axis.set 1 1 else axis
  let inMat := Matrix4.Mult (Rotate fm (axis.idx 0) (axis.idx 1) (axis.idx 2) angle) matrix
  let scale : Vector α := [Vector.Magnitude fm (Matrix4.Row inMat 0),
    Vector.Magnitude fm (Matrix4.Row inMat 1), Vector.Magnitude fm (Matrix4.Row inMat 2)]
  (position, scale, NewAxisAngle axis angle)

/-- The type `Triangle`, as far as the pipeline reads it: its integer `ID`. -/
structure Triangle where
  /-- The identifier that the bit set is indexed by. -/
  ID : Nat
  deriving DecidableEq, Repr

/-- The type `Vertex`, as far as the pipeline reads it: the position in the mesh, the
cached transformed position and the triangle that owns the vertex. -/
structure Vertex (α : Type) where
  /-- The position in model space. -/
  Position : Vector α
  /-- The position after the last transform step. -/
  transformed : Vector α
  /-- The owning triangle. -/
  triangle : Triangle

/-- The type `Mesh`, as far as the pipeline reads it. -/
structure Mesh (α : Type) where
  /-- The triangles of the mesh. -/
  Triangles : List Triangle
  /-- The vertices, in the order the last sort left them. -/
  sortedVertices : List (Vertex α)

/-- The type `Model`, as far as `Transform` and `TransformedVertices` read it. -/
structure Model (α : Type) where
  /-- The shared mesh. -/
  Mesh : Mesh α
  /-- The position of the model. -/
  Position : Vector α
  /-- The scale of the model. -/
  Scale : Vector α
  /-- The rotation of the model. -/
  Rotation : AxisAngle α
  /-- The triangle list of the last call. -/
  closestTris : List Triangle
  /-- The direction of the depth sort. -/
  SortTrisBackToFront : Bool

/-- The method `Model.Transform`: scale, then rotation, then translation. -/
def Model.Transform (fm : FloatMath α) (model : Model α) : Matrix4 α :=
  let transform := Tetra3d.Scale (model.Scale.idx 0) (model.Scale.idx 1) (model.Scale.idx 2)
  let transform := Matrix4.Mult transform (Rotate fm (model.Rotation.Axis.idx 0)
    (model.Rotation.Axis.idx 1) (model.Rotation.Axis.idx 2) model.Rotation.Angle)
  let transform := Matrix4.Mult transform (Translate (model.Position.idx 0)
    (model.Position.idx 1) (model.Position.idx 2))
  transform

/-- Modelled from the spec: the helper `fastSub` is called by `TransformedVertices` and is
not among the sources; the spec sorts by the Euclidean distance from the viewer position
to the transformed position, so it is the difference of the three coordinates. -/
def fastSub (a b : Vector α) : Vector α :=
  [a.idx 0 - b.idx 0, a.idx 1 - b.idx 1, a.idx 2 - b.idx 2]

/-- Insertion of `x` in front of a stably sorted list: `x` goes behind the elements that
are less than it and stays in front of the first one that is not. -/
def insertStable {β : Type} (less : β → β → Bool) (x : β) : List β → List β
  | [] => [x]
  | y :: ys => if less y x then y :: insertStable less x ys else x :: y :: ys

/-- The function `sort.SliceStable`: the stable sort of a slice by `less`, elements that
neither is less than the other keeping their order; written as insertion from the back,
which returns the stably sorted slice as every stable sort does. -/
def SliceStable {β : Type} (less : β → β → Bool) : List β → List β
  | [] => []
  | x :: xs => insertStable less x (SliceStable less xs)

/-- The loop over the sorted vertices at the end of `TransformedVertices`: a triangle is
appended to `closestTris` when its ID is not in the bit set `set`, and its ID is then added. -/
def collectTris : List (Vertex α) → List Nat → List Triangle → List Triangle
  | [], _, closestTris => closestTris
  | v :: vs, set, closestTris =>
    if !set.contains v.triangle.ID then
      collectTris vs (v.triangle.ID :: set) (closestTris ++ [v.triangle])
    else
      collectTris vs set closestTris

/-- The method `Model.TransformedVertices`: the model after the call (the vertices carry
their new `transformed` positions and are left in sorted order) and the returned triangles. -/
def Model.TransformedVertices (fm : FloatMath α) (model : Model α) (vpMatrix : Matrix4 α)
    (viewPos : Vector α) : Model α × List Triangle :=
  let mvp := Matrix4.Mult (model.Transform fm) vpMatrix
  let verts := model.Mesh.sortedVertices.map
    (fun vert => { vert with transformed := Matrix4.MultVecW mvp vert.Position })
  let sorted :=
    if model.SortTrisBackToFront then
      SliceStable (fun vi vj => decide (Vector.Magnitude fm (fastSub vi.transformed viewPos)
        > Vector.Magnitude fm (fastSub vj.transformed viewPos))) verts
    else
      SliceStable (fun vi vj => decide (Vector.Magnitude fm (fastSub vi.transformed viewPos)
        < Vector.Magnitude fm (fastSub vj.transformed viewPos))) verts
  let closestTris := collectTris sorted [] []
  ({ model with
      Mesh := { model.Mesh with sortedVertices := sorted }
      closestTris := closestTris },
   closestTris)

/-- A concrete vertex at `(1, 0, 0)`, owned by triangle 0. -/
def vertexA : Vertex α :=
  { Position := [1, 0, 0], transformed := [], triangle := { ID := 0 } }

/-- A concrete vertex at `(-1, 0, 0)`, owned by triangle 1. -/
def vertexB : Vertex α :=
  { Position := [-1, 0, 0], transformed := [], triangle := { ID := 1 } }

/-- A concrete model: a mesh of triangles 0 and 1 with the vertices `vertexA` and `vertexB`,
in this order in `sortedVertices`, with the transform that `NewModel` sets (position 0,
scale 1, no rotation) and the back-to-front sort. -/
def twoTriangleModel : Model α :=
  { Mesh := { Triangles := [{ ID := 0 }, { ID := 1 }], sortedVertices := [vertexA, vertexB] }
    Position := [0, 0, 0]
    Scale := [1, 1, 1]
    Rotation := NewAxisAngle [0, 1, 0] 0
    closestTris := []
    SortTrisBackToFront := true }

/-- The model `twoTriangleModel` with its two vertices in the other order in
`sortedVertices`. -/
def twoTriangleModelSwapped : Model α :=
  { (twoTriangleModel : Model α) with
    Mesh := { Triangles := [{ ID := 0 }, { ID := 1 }], sortedVertices := [vertexB, vertexA] } }

/-- Modelled from the spec: the bounding-volume code is not among the sources.  A bounding
sphere is given by its centre in world space, its radius and the scale of its world
transform. -/
structure BoundingSphere (α : Type) where
  /-- The centre in world space. -/
  Center : Vector α
  /-- The radius. -/
  Radius : α
  /-- The scale of the world transform. -/
  Scale : α

/-- Modelled from the spec: the result of an intersection test that found an overlap. -/
structure IntersectionResult (α : Type) where
  /-- The minimum translation vector. -/
  MTV : Vector α

/-- Modelled from the spec: the sphere against sphere test of `Intersection`, not among the
sources.  The distance between the world centres is compared with the sum of the
world-scaled radii, spheres that touch do not intersect, and the MTV is the direction from
the second centre to the first, scaled by the penetration depth. -/
def BoundingSphere.Intersection (fm : FloatMath α) (sphere other : BoundingSphere α) :
    Option (IntersectionResult α) :=
  let delta := fastSub sphere.Center other.Center
  let dist := Vector.Magnitude fm delta
  let radii := sphere.Radius * sphere.Scale + other.Radius * other.Scale
  if dist < radii then
    some { MTV := (Vector.Unit fm delta).map (fun x => x * (radii - dist)) }
  else
    none

/-- The method `Matrix4.Clone`: the two loops copy every entry into a new matrix. -/
def Matrix4.Clone (matrix : Matrix4 α) : Matrix4 α :=
  fun y x => matrix y x

/-- The method `Matrix4.Rotate`: a clone of the matrix; the result of `mat.MultVec(v)` is
dropped and `angle` is not read.  `MultVec` reads `v[0]`, `v[1]` and `v[2]`, so on a slice
of fewer than three components the call panics and the method returns nothing. -/
def Matrix4.Rotate (matrix : Matrix4 α) (v : Vector α) (_angle : α) : Option (Matrix4 α) :=
  let mat := Matrix4.Clone matrix
  if v.length < 3 then
    none
  else
    let _ := Matrix4.MultVec mat v
    some mat

/-- The method `Vector.Sub` of `github.com/kvartborg/vector`, for two vectors of the same
dimension: the difference component by component. -/
def Vector.Sub (a b : Vector α) : Vector α :=
  List.zipWith (fun x y => x - y) a b

/-- The method `Vector.Dot` of `github.com/kvartborg/vector`: the sum of the products of the
components. -/
def Vector.Dot (a b : Vector α) : α :=
  (List.zipWith (fun x y => x * y) a b).sum

/-- The method `Vector.Cross` of `github.com/kvartborg/vector`, for two vectors of three
components (for any other dimension it returns an error, which `LookAt` drops). -/
def Vector.Cross (a b : Vector α) : Vector α :=
  [a.idx 1 * b.idx 2 - a.idx 2 * b.idx 1,
   a.idx 2 * b.idx 0 - a.idx 0 * b.idx 2,
   a.idx 0 * b.idx 1 - a.idx 1 * b.idx 0]

/-- The function `LookAt`. -/
def LookAt (fm : FloatMath α) (eye center up : Vector α) : Matrix4 α :=
  let z := Vector.Unit fm (Vector.Sub eye center)
  let x := Vector.Cross up z
  let x := Vector.Unit fm x
  let y := Vector.Cross z x
  ![![x.idx 0, x.idx 1, x.idx 2, -(Vector.Dot x eye)],
    ![y.idx 0, y.idx 1, y.idx 2, -(Vector.Dot y eye)],
    ![z.idx 0, z.idx 1, z.idx 2, -(Vector.Dot z eye)],
    ![0, 0, 0, 1]]

/-- A `float64` result that may leave the real numbers: a real number, an infinity with its
sign, or NaN.  It is used where the code divides by a value that can be zero.  The sign of
a zero is not tracked. -/
inductive FloatVal (α : Type) where
  /-- A finite value. -/
  | fin (x : α)
  /-- An infinity; `negative` is its sign bit. -/
  | inf (negative : Bool)
  /-- Not a number. -/
  | nan

/-- Negation of a `float64`. -/
def FloatVal.neg : FloatVal α → FloatVal α
  | .fin x => .fin (-x)
  | .inf s => .inf (!s)
  | .nan => .nan

/-- Addition of two `float64`: infinities of opposite sign add up to NaN. -/
def FloatVal.add : FloatVal α → FloatVal α → FloatVal α
  | .fin x, .fin y => .fin (x + y)
  | .fin _, .inf s => .inf s
  | .inf s, .fin _ => .inf s
  | .inf s, .inf s2 => if s = s2 then .inf s else .nan
  | _, _ => .nan

/-- Subtraction of two `float64`. -/
def FloatVal.sub (a b : FloatVal α) : FloatVal α :=
  FloatVal.add a (FloatVal.neg b)

/-- Multiplication of two `float64`: zero times an infinity is NaN. -/
def FloatVal.mul : FloatVal α → FloatVal α → FloatVal α
  | .fin x, .fin y => .fin (x * y)
  | .fin x, .inf s => if x = 0 then .nan else .inf (xor s (decide (x < 0)))
  | .inf s, .fin y => if y = 0 then .nan else .inf (xor s (decide (y < 0)))
  | .inf s, .inf s2 => .inf (xor s s2)
  | _, _ => .nan

/-- Division of two `float64`: a non-zero value over zero is an infinity, zero over zero is
NaN, a finite value over an infinity is zero. -/
def FloatVal.div : FloatVal α → FloatVal α → FloatVal α
  | .fin x, .fin y =>
    if y = 0 then (if x = 0 then .nan else .inf (decide (x < 0))) else .fin (x / y)
  | .fin _, .inf _ => .fin 0
  | .inf s, .fin y => .inf (xor s (decide (y < 0)))
  | _, _ => .nan

/-- The function `Perspective`; `tan` is `math.Tan` and `pi` is `math.Pi`.  The arguments are
finite; the entries are `float64` results, since every divisor can be zero. -/
def Perspective (tan : α → α) (pi : α) (fovy near far viewWidth viewHeight : α) :
    Matrix4 (FloatVal α) :=
  let aspect := FloatVal.div (.fin viewWidth) (.fin viewHeight)
  let t := FloatVal.fin (tan (fovy * pi / 360))
  let b := FloatVal.neg t
  let r := FloatVal.mul t aspect
  let l := FloatVal.neg r
  ![![FloatVal.div (.fin (2 * near)) (FloatVal.sub r l), .fin 0,
      FloatVal.div (FloatVal.add r l) (FloatVal.sub r l), .fin 0],
    ![.fin 0, FloatVal.div (.fin (2 * near)) (FloatVal.sub t b),
      FloatVal.div (FloatVal.add t b) (FloatVal.sub t b), .fin 0],
    ![.fin 0, .fin 0, FloatVal.neg (FloatVal.div (.fin (far + near)) (.fin (far - near))),
      FloatVal.neg (FloatVal.div (.fin (2 * far * near)) (.fin (far - near)))],
    ![.fin 0, .fin 0, .fin (-1), .fin 0]]

/-- The largest number of a list (0 for the empty list). -/
def largest : List α → α
  | [] => 0
  | [x] => x
  | x :: y :: ys => max x (largest (y :: ys))

/-- The smallest number of a list (0 for the empty list). -/
def smallest : List α → α
  | [] => 0
  | [x] => x
  | x :: y :: ys => min x (smallest (y :: ys))

/-- The distances that `TransformedVertices` sorts by, for the vertices of one triangle: the
magnitude of `fastSub(mvp.MultVecW(v.Position), viewPos)` for every vertex `v` of the mesh
that the triangle owns, with `mvp = Transform().Mult(vpMatrix)`. -/
def Model.triangleDistances (fm : FloatMath α) (model : Model α) (vpMatrix : Matrix4 α)
    (viewPos : Vector α) (tri : Triangle) : List α :=
  (model.Mesh.sortedVertices.filter (fun v => decide (v.triangle = tri))).map
    (fun v => Vector.Magnitude fm
      (fastSub (Matrix4.MultVecW (Matrix4.Mult (model.Transform fm) vpMatrix) v.Position)
        viewPos))

/-! ## Theorems -/

/-- Entry `i`, `j` of a product is row `i` of the left factor against column `j` of the right. -/
theorem Mult_apply (A B : Matrix4 α) (i j : Fin 4) :
    Matrix4.Mult A B i j = A i 0 * B 0 j + A i 1 * B 1 j + A i 2 * B 2 j + A i 3 * B 3 j := by
  fin_cases i <;> fin_cases j <;> rfl

/-- C1: `Matrix4.Mult` is associative over the reals: `A.Mult(B).Mult(C) = A.Mult(B.Mult(C))`
for all matrices `A`, `B`, `C`. -/
theorem Mult_assoc (A B C : Matrix4 ℝ) :
    Matrix4.Mult (Matrix4.Mult A B) C = Matrix4.Mult A (Matrix4.Mult B C) := by
  funext i j
  simp only [Mult_apply]
  ring

/-- Reading an entry of a matrix after the assignment `mat[i][j] = v`. -/
theorem set_apply (mat : Matrix4 α) (i j a b : Fin 4) (v : α) :
    Matrix4.set mat i j v a b = if a = i ∧ b = j then v else mat a b := rfl

/-- The entries of the identity matrix. -/
theorem NewMatrix4_apply (i j : Fin 4) :
    (NewMatrix4 : Matrix4 α) i j = if i = j then 1 else 0 := by
  fin_cases i <;> fin_cases j <;> rfl

/-- The matrix that `Rotate` builds, in terms of the normalised axis. -/
theorem Rotate_eq (fm : FloatMath α) (x y z angle u0 u1 u2 : α)
    (h : Vector.Unit fm [x, y, z] = [u0, u1, u2]) :
    Rotate fm x y z angle =
      ![![(1 - fm.cos angle) * u0 * u0 + fm.cos angle,
          (1 - fm.cos angle) * u0 * u1 + u2 * fm.sin angle,
          (1 - fm.cos angle) * u2 * u0 - u1 * fm.sin angle, 0],
        ![(1 - fm.cos angle) * u0 * u1 - u2 * fm.sin angle,
          (1 - fm.cos angle) * u1 * u1 + fm.cos angle,
          (1 - fm.cos angle) * u1 * u2 + u0 * fm.sin angle, 0],
        ![(1 - fm.cos angle) * u2 * u0 + u1 * fm.sin angle,
          (1 - fm.cos angle) * u1 * u2 - u0 * fm.sin angle,
          (1 - fm.cos angle) * u2 * u2 + fm.cos angle, 0],
        ![0, 0, 0, 1]] := by
  funext i j
  simp only [Rotate, h]
  fin_cases i <;> fin_cases j <;>
    simp [set_apply, NewMatrix4_apply, Vector.idx, Matrix.vecHead, Matrix.vecTail]

/-- The last row of a rotation matrix is that of the identity. -/
theorem Rotate_row3 (fm : FloatMath α) (x y z angle : α) (j : Fin 4) :
    Rotate fm x y z angle 3 j = if j = 3 then 1 else 0 := by
  simp only [Rotate]
  fin_cases j <;> simp [set_apply, NewMatrix4_apply]

/-- The last column of a rotation matrix is that of the identity. -/
theorem Rotate_col3 (fm : FloatMath α) (x y z angle : α) (i : Fin 4) :
    Rotate fm x y z angle i 3 = if i = 3 then 1 else 0 := by
  simp only [Rotate]
  fin_cases i <;> simp [set_apply, NewMatrix4_apply]

/-- The entries of a scale matrix. -/
theorem Scale_eq (x y z : α) :
    Scale x y z = ![![x, 0, 0, 0], ![0, y, 0, 0], ![0, 0, z, 0], ![0, 0, 0, 1]] := by
  funext i j
  fin_cases i <;> fin_cases j <;>
    simp [Scale, set_apply, NewMatrix4_apply, Matrix.vecHead, Matrix.vecTail]

/-- The entries of a translation matrix. -/
theorem Translate_eq (x y z : α) :
    Translate x y z = ![![1, 0, 0, 0], ![0, 1, 0, 0], ![0, 0, 1, 0], ![x, y, z, 1]] := by
  funext i j
  fin_cases i <;> fin_cases j <;>
    simp [Translate, set_apply, NewMatrix4_apply, Matrix.vecHead, Matrix.vecTail]

/-- C2: `Transform()` applies scale, then rotation, then translation: for every model and
every point `v`, `Transform().MultVec(v)` is the rotation applied to the scaled point
`(S0*v0, S1*v1, S2*v2)`, plus the position. -/
theorem Transform_MultVec (model : Model ℝ) (v0 v1 v2 : ℝ) :
    Matrix4.MultVec (Model.Transform ⟨Real.sqrt, Real.sin, Real.cos, Real.arccos⟩ model)
        [v0, v1, v2]
      = List.zipWith (fun r p => r + p)
          (Matrix4.MultVec
            (Rotate ⟨Real.sqrt, Real.sin, Real.cos, Real.arccos⟩ (model.Rotation.Axis.idx 0)
              (model.Rotation.Axis.idx 1) (model.Rotation.Axis.idx 2) model.Rotation.Angle)
            [model.Scale.idx 0 * v0, model.Scale.idx 1 * v1, model.Scale.idx 2 * v2])
          [model.Position.idx 0, model.Position.idx 1, model.Position.idx 2] := by
  simp only [Model.Transform, Matrix4.MultVec, Mult_apply, Scale_eq, Translate_eq, Rotate_row3,
    Rotate_col3, List.zipWith_cons_cons, List.zipWith_nil_right, Vector.idx]
  simp [Matrix.vecHead, Matrix.vecTail]
  refine ⟨?_, ?_, ?_⟩ <;> ring


/-- Two matrices with the same sixteen entries are equal. -/
theorem Matrix4_ext (A B : Matrix4 α)
    (h00 : A 0 0 = B 0 0) (h01 : A 0 1 = B 0 1) (h02 : A 0 2 = B 0 2) (h03 : A 0 3 = B 0 3)
    (h10 : A 1 0 = B 1 0) (h11 : A 1 1 = B 1 1) (h12 : A 1 2 = B 1 2) (h13 : A 1 3 = B 1 3)
    (h20 : A 2 0 = B 2 0) (h21 : A 2 1 = B 2 1) (h22 : A 2 2 = B 2 2) (h23 : A 2 3 = B 2 3)
    (h30 : A 3 0 = B 3 0) (h31 : A 3 1 = B 3 1) (h32 : A 3 2 = B 3 2) (h33 : A 3 3 = B 3 3) :
    A = B := by
  funext i j
  fin_cases i <;> fin_cases j <;> assumption

/-- The nine entries that `Rotate` assigns, in terms of the normalised axis. -/
theorem Rotate_entries (fm : FloatMath α) (x y z angle u0 u1 u2 : α)
    (h : Vector.Unit fm [x, y, z] = [u0, u1, u2]) :
    Rotate fm x y z angle 0 0 = (1 - fm.cos angle) * u0 * u0 + fm.cos angle
      ∧ Rotate fm x y z angle 0 1 = (1 - fm.cos angle) * u0 * u1 + u2 * fm.sin angle
      ∧ Rotate fm x y z angle 0 2 = (1 - fm.cos angle) * u2 * u0 - u1 * fm.sin angle
      ∧ Rotate fm x y z angle 1 0 = (1 - fm.cos angle) * u0 * u1 - u2 * fm.sin angle
      ∧ Rotate fm x y z angle 1 1 = (1 - fm.cos angle) * u1 * u1 + fm.cos angle
      ∧ Rotate fm x y z angle 1 2 = (1 - fm.cos angle) * u1 * u2 + u0 * fm.sin angle
      ∧ Rotate fm x y z angle 2 0 = (1 - fm.cos angle) * u2 * u0 + u1 * fm.sin angle
      ∧ Rotate fm x y z angle 2 1 = (1 - fm.cos angle) * u1 * u2 - u0 * fm.sin angle
      ∧ Rotate fm x y z angle 2 2 = (1 - fm.cos angle) * u2 * u2 + fm.cos angle := by
  simp only [Rotate, h]
  refine ⟨?_, ?_, ?_, ?_, ?_, ?_, ?_, ?_, ?_⟩ <;> simp [set_apply, Vector.idx]

/-- The magnitude of a real vector of three components. -/
theorem Magnitude_three (x y z : ℝ) :
    Vector.Magnitude ⟨Real.sqrt, Real.sin, Real.cos, Real.arccos⟩ [x, y, z]
      = Real.sqrt (x * x + y * y + z * z) := by
  simp [Vector.Magnitude, add_assoc]

/-- A real vector of magnitude one is its own normalisation. -/
theorem Unit_of_unit (x y z : ℝ) (h : x * x + y * y + z * z = 1) :
    Vector.Unit ⟨Real.sqrt, Real.sin, Real.cos, Real.arccos⟩ [x, y, z] = [x, y, z] := by
  have hm := Magnitude_three x y z
  rw [h, Real.sqrt_one] at hm
  simp only [Vector.Unit, hm]
  norm_num

/-- A real vector whose magnitude reaches the tolerance of `Unit` is divided by it, and the
result has magnitude one. -/
theorem Unit_of_long (x y z : ℝ) (h : 1 / 100000000 ≤ Real.sqrt (x * x + y * y + z * z)) :
    ∃ u0 u1 u2 : ℝ,
      Vector.Unit ⟨Real.sqrt, Real.sin, Real.cos, Real.arccos⟩ [x, y, z] = [u0, u1, u2]
        ∧ u0 * u0 + u1 * u1 + u2 * u2 = 1 := by
  have hm := Magnitude_three x y z
  have hpos : 0 < Real.sqrt (x * x + y * y + z * z) := by linarith
  have hnn : 0 ≤ x * x + y * y + z * z := by
    nlinarith [mul_self_nonneg x, mul_self_nonneg y, mul_self_nonneg z]
  have hsq := Real.mul_self_sqrt hnn
  refine ⟨x / Real.sqrt (x * x + y * y + z * z), y / Real.sqrt (x * x + y * y + z * z),
    z / Real.sqrt (x * x + y * y + z * z), ?_, ?_⟩
  · simp only [Vector.Unit, hm, if_neg (not_lt.mpr h), List.map_cons, List.map_nil]
  · generalize Real.sqrt (x * x + y * y + z * z) = l at hpos hsq
    have hl : l ≠ 0 := ne_of_gt hpos
    have hdiv : x / l * (x / l) + y / l * (y / l) + z / l * (z / l)
        = (x * x + y * y + z * z) / (l * l) := by
      field_simp
    rw [hdiv, ← hsq]
    exact div_self (mul_ne_zero hl hl)

/-- C7: `Decompose` reads the position from row 3: for every matrix `M` the position is
`(M[3][0], M[3][1], M[3][2])`, and the position of `Scale(s).Mult(Rotate(a, t)).Mult(Translate(p))`
is `p`, for every scale, axis, angle and position. -/
theorem Decompose_position (M : Matrix4 ℝ) (s0 s1 s2 a0 a1 a2 t p0 p1 p2 : ℝ) :
    (Matrix4.Decompose ⟨Real.sqrt, Real.sin, Real.cos, Real.arccos⟩ M).1
        = [M 3 0, M 3 1, M 3 2]
      ∧ (Matrix4.Decompose ⟨Real.sqrt, Real.sin, Real.cos, Real.arccos⟩
          (Matrix4.Mult
            (Matrix4.Mult (Scale s0 s1 s2)
              (Rotate ⟨Real.sqrt, Real.sin, Real.cos, Real.arccos⟩ a0 a1 a2 t))
            (Translate p0 p1 p2))).1 = [p0, p1, p2] := by
  refine ⟨rfl, ?_⟩
  show [_, _, _] = _
  simp [Mult_apply, Scale_eq, Translate_eq, Rotate_row3, Matrix.vecHead, Matrix.vecTail]

/-- C10: `Mult` is not commutative: tilting by 90 degrees about X and then rotating by 90
degrees about Y differs from the product in the other order. -/
theorem Mult_not_comm :
    ∃ t r : ℝ,
      Matrix4.Mult (Rotate ⟨Real.sqrt, Real.sin, Real.cos, Real.arccos⟩ 1 0 0 t)
          (Rotate ⟨Real.sqrt, Real.sin, Real.cos, Real.arccos⟩ 0 1 0 r)
        ≠ Matrix4.Mult (Rotate ⟨Real.sqrt, Real.sin, Real.cos, Real.arccos⟩ 0 1 0 r)
          (Rotate ⟨Real.sqrt, Real.sin, Real.cos, Real.arccos⟩ 1 0 0 t) := by
  refine ⟨Real.pi / 2, Real.pi / 2, fun h => ?_⟩
  have h02 := congrFun (congrFun h 0) 2
  rw [Rotate_eq _ 1 0 0 _ 1 0 0 (Unit_of_unit 1 0 0 (by norm_num)),
    Rotate_eq _ 0 1 0 _ 0 1 0 (Unit_of_unit 0 1 0 (by norm_num))] at h02
  simp [Mult_apply, Matrix.vecHead, Matrix.vecTail] at h02


/-- C4, as amended: for every axis whose magnitude reaches `1e-8`, the tolerance below which
`Unit` leaves a vector as it is, and every angle, the rotation matrix `R` built by `Rotate`
satisfies `R.Mult(R.Transposed()) = NewMatrix4()`. -/
theorem Rotate_Mult_Transposed (x y z angle : ℝ)
    (h : 1 / 100000000 ≤ Vector.Magnitude ⟨Real.sqrt, Real.sin, Real.cos, Real.arccos⟩ [x, y, z]) :
    Matrix4.Mult (Rotate ⟨Real.sqrt, Real.sin, Real.cos, Real.arccos⟩ x y z angle) (Matrix4.Transposed (Rotate ⟨Real.sqrt, Real.sin, Real.cos, Real.arccos⟩ x y z angle))
      = NewMatrix4 := by
  rw [Magnitude_three] at h
  obtain ⟨u0, u1, u2, hU, hu⟩ := Unit_of_long x y z h
  have hs := Real.sin_sq_add_cos_sq angle
  have hR := Rotate_entries ⟨Real.sqrt, Real.sin, Real.cos, Real.arccos⟩ x y z angle u0 u1 u2 hU
  dsimp only at hR
  obtain ⟨r00, r01, r02, r10, r11, r12, r20, r21, r22⟩ := hR
  apply Matrix4_ext <;>
    simp only [Mult_apply, Matrix4.Transposed, NewMatrix4_apply, Rotate_row3, Rotate_col3,
      r00, r01, r02, r10, r11, r12, r20, r21, r22] <;>
    simp
  · linear_combination (Real.sin angle ^ 2 + u0 * u0 * (1 - Real.cos angle) ^ 2) * hu
      + (1 - u0 * u0) * hs
  · linear_combination (u0 * u1 * (1 - Real.cos angle) ^ 2) * hu + (0 - u0 * u1) * hs
  · linear_combination (u0 * u2 * (1 - Real.cos angle) ^ 2) * hu + (0 - u0 * u2) * hs
  · linear_combination (u1 * u0 * (1 - Real.cos angle) ^ 2) * hu + (0 - u1 * u0) * hs
  · linear_combination (Real.sin angle ^ 2 + u1 * u1 * (1 - Real.cos angle) ^ 2) * hu
      + (1 - u1 * u1) * hs
  · linear_combination (u1 * u2 * (1 - Real.cos angle) ^ 2) * hu + (0 - u1 * u2) * hs
  · linear_combination (u2 * u0 * (1 - Real.cos angle) ^ 2) * hu + (0 - u2 * u0) * hs
  · linear_combination (u2 * u1 * (1 - Real.cos angle) ^ 2) * hu + (0 - u2 * u1) * hs
  · linear_combination (Real.sin angle ^ 2 + u2 * u2 * (1 - Real.cos angle) ^ 2) * hu
      + (1 - u2 * u2) * hs

/-- Witness of `Rotate_Mult_Transposed`: the axis `(0, 0, 2)` and the angle 1. -/
theorem Rotate_Mult_Transposed_witness :
    1 / 100000000 ≤ Vector.Magnitude ⟨Real.sqrt, Real.sin, Real.cos, Real.arccos⟩ [(0 : ℝ), 0, 2]
      ∧ Matrix4.Mult (Rotate ⟨Real.sqrt, Real.sin, Real.cos, Real.arccos⟩ 0 0 2 1) (Matrix4.Transposed (Rotate ⟨Real.sqrt, Real.sin, Real.cos, Real.arccos⟩ 0 0 2 1))
        = NewMatrix4 :=
  have h : 1 / 100000000 ≤ Vector.Magnitude ⟨Real.sqrt, Real.sin, Real.cos, Real.arccos⟩ [(0 : ℝ), 0, 2] := by
    rw [Magnitude_three, show (0 : ℝ) * 0 + 0 * 0 + 2 * 2 = 2 ^ 2 by norm_num,
      Real.sqrt_sq (by norm_num)]
    norm_num
  ⟨h, Rotate_Mult_Transposed 0 0 2 1 h⟩

/-- C4, counterexample: the axis `(1e-9, 0, 0)` has non-zero length, `Unit` returns it as it
is, and the matrix of the rotation by `π` about it is not orthonormal. -/
theorem Rotate_short_axis_not_orthonormal :
    Vector.Magnitude ⟨Real.sqrt, Real.sin, Real.cos, Real.arccos⟩ [(1 / 1000000000 : ℝ), 0, 0] ≠ 0
      ∧ Matrix4.Mult (Rotate ⟨Real.sqrt, Real.sin, Real.cos, Real.arccos⟩ (1 / 1000000000) 0 0 Real.pi)
          (Matrix4.Transposed (Rotate ⟨Real.sqrt, Real.sin, Real.cos, Real.arccos⟩ (1 / 1000000000) 0 0 Real.pi))
        ≠ NewMatrix4 := by
  have hm : Vector.Magnitude ⟨Real.sqrt, Real.sin, Real.cos, Real.arccos⟩ [(1 / 1000000000 : ℝ), 0, 0] = 1 / 1000000000 := by
    rw [Magnitude_three, show (1 / 1000000000 : ℝ) * (1 / 1000000000) + 0 * 0 + 0 * 0
      = (1 / 1000000000) ^ 2 by norm_num, Real.sqrt_sq (by norm_num)]
  have hU : Vector.Unit ⟨Real.sqrt, Real.sin, Real.cos, Real.arccos⟩ [(1 / 1000000000 : ℝ), 0, 0] = [1 / 1000000000, 0, 0] := by
    simp only [Vector.Unit, hm]
    norm_num
  refine ⟨by rw [hm]; norm_num, fun h => ?_⟩
  have h00 := congrFun (congrFun h 0) 0
  rw [Rotate_eq _ _ _ _ _ _ _ _ hU] at h00
  simp [Mult_apply, Matrix4.Transposed, NewMatrix4_apply, Matrix.vecHead, Matrix.vecTail] at h00
  norm_num at h00


/-- The entries of a scale matrix, by index. -/
theorem Scale_apply (x y z : α) (i j : Fin 4) :
    Scale x y z i j
      = if i = j then (if i = 0 then x else if i = 1 then y else if i = 2 then z else 1)
        else 0 := by
  fin_cases i <;> fin_cases j <;> simp [Scale, set_apply, NewMatrix4_apply]

/-- The entries of a translation matrix, by index. -/
theorem Translate_apply (x y z : α) (i j : Fin 4) :
    Translate x y z i j
      = if i = j then 1
        else if i = 3 then (if j = 0 then x else if j = 1 then y else z) else 0 := by
  fin_cases i <;> fin_cases j <;> simp [Translate, set_apply, NewMatrix4_apply]

/-- The magnitude of a real vector of four components. -/
theorem Magnitude_four (x y z w : ℝ) :
    Vector.Magnitude ⟨Real.sqrt, Real.sin, Real.cos, Real.arccos⟩ [x, y, z, w] = Real.sqrt (x * x + y * y + z * z + w * w) := by
  simp [Vector.Magnitude, add_assoc]

/-- The result of `Decompose` in terms of its intermediate values: the angle, the divisor
`s`, the normalised skew part `axis0` and the axis after the fallback. -/
theorem Decompose_eq (fm : FloatMath α) (M : Matrix4 α) (angle s : α) (axis0 axis : Vector α)
    (hangle : angle = if (M 0 0 + M 1 1 + M 2 2 - 1) / 2 < -1 ∨ 1 < (M 0 0 + M 1 1 + M 2 2 - 1) / 2
      then 0 else fm.acos ((M 0 0 + M 1 1 + M 2 2 - 1) / 2))
    (hs : s = if |fm.sqrt ((M 2 1 - M 1 2) ^ 2 + (M 0 2 - M 2 0) ^ 2 + (M 1 0 - M 0 1) ^ 2)|
        ≤ 1 / 10000 then 1
      else fm.sqrt ((M 2 1 - M 1 2) ^ 2 + (M 0 2 - M 2 0) ^ 2 + (M 1 0 - M 0 1) ^ 2))
    (haxis0 : axis0 = Vector.Unit fm [(M 1 2 - M 2 1) / s, (M 2 0 - M 0 2) / s,
      (M 0 1 - M 1 0) / s])
    (haxis : axis = if Vector.Magnitude fm axis0 = 0 then axis0.set 1 1 else axis0) :
    Matrix4.Decompose fm M
      = ([M 3 0, M 3 1, M 3 2],
         [Vector.Magnitude fm (Matrix4.Row (Matrix4.Mult
            (Rotate fm (axis.idx 0) (axis.idx 1) (axis.idx 2) angle) M) 0),
          Vector.Magnitude fm (Matrix4.Row (Matrix4.Mult
            (Rotate fm (axis.idx 0) (axis.idx 1) (axis.idx 2) angle) M) 1),
          Vector.Magnitude fm (Matrix4.Row (Matrix4.Mult
            (Rotate fm (axis.idx 0) (axis.idx 1) (axis.idx 2) angle) M) 2)],
         NewAxisAngle axis angle) := by
  subst haxis haxis0 hs hangle
  rfl

/-- C5, the code at the claim's own example: for the scale `(2, 1, 1)`, a rotation by 90
degrees about Z and the position `(0, 0, 0)`, `Decompose` returns the scale `(1, 2, 1)`. -/
theorem Decompose_scale_swapped :
    (Matrix4.Decompose ⟨Real.sqrt, Real.sin, Real.cos, Real.arccos⟩
      (Matrix4.Mult (Matrix4.Mult (Scale 2 1 1) (Rotate ⟨Real.sqrt, Real.sin, Real.cos, Real.arccos⟩ 0 0 1 (Real.pi / 2)))
        (Translate 0 0 0))).2.1 = [1, 2, 1] := by
  have hU : Vector.Unit ⟨Real.sqrt, Real.sin, Real.cos, Real.arccos⟩ [(0 : ℝ), 0, 1] = [0, 0, 1] := Unit_of_unit 0 0 1 (by norm_num)
  have hR := Rotate_entries ⟨Real.sqrt, Real.sin, Real.cos, Real.arccos⟩ 0 0 1 (Real.pi / 2) 0 0 1 hU
  simp only [Real.cos_pi_div_two, Real.sin_pi_div_two] at hR
  norm_num at hR
  obtain ⟨r00, r01, r02, r10, r11, r12, r20, r21, r22⟩ := hR
  obtain ⟨M, hM⟩ : ∃ M, M = Matrix4.Mult (Matrix4.Mult (Scale 2 1 1)
      (Rotate ⟨Real.sqrt, Real.sin, Real.cos, Real.arccos⟩ 0 0 1 (Real.pi / 2))) (Translate 0 0 0) := ⟨_, rfl⟩
  rw [← hM]
  have e : M 0 0 = 0 ∧ M 0 1 = 2 ∧ M 0 2 = 0 ∧ M 0 3 = 0
      ∧ M 1 0 = -1 ∧ M 1 1 = 0 ∧ M 1 2 = 0 ∧ M 1 3 = 0
      ∧ M 2 0 = 0 ∧ M 2 1 = 0 ∧ M 2 2 = 1 ∧ M 2 3 = 0
      ∧ M 3 0 = 0 ∧ M 3 1 = 0 ∧ M 3 2 = 0 ∧ M 3 3 = 1 := by
    subst hM
    refine ⟨?_, ?_, ?_, ?_, ?_, ?_, ?_, ?_, ?_, ?_, ?_, ?_, ?_, ?_, ?_, ?_⟩ <;>
      simp only [Mult_apply, Scale_apply, Translate_apply, Rotate_row3, Rotate_col3,
        r00, r01, r02, r10, r11, r12, r20, r21, r22] <;>
      simp
  obtain ⟨m00, m01, m02, m03, m10, m11, m12, m13, m20, m21, m22, m23, m30, m31, m32, m33⟩ := e
  have h9 : Real.sqrt ((M 2 1 - M 1 2) ^ 2 + (M 0 2 - M 2 0) ^ 2 + (M 1 0 - M 0 1) ^ 2) = 3 := by
    rw [m21, m12, m02, m20, m10, m01,
      show ((0 : ℝ) - 0) ^ 2 + (0 - 0) ^ 2 + (-1 - 2) ^ 2 = 3 ^ 2 by norm_num,
      Real.sqrt_sq (by norm_num)]
  have hmag : Vector.Magnitude ⟨Real.sqrt, Real.sin, Real.cos, Real.arccos⟩ [(0 : ℝ), 0, 1] = 1 := by
    rw [Magnitude_three]
    norm_num
  rw [Decompose_eq ⟨Real.sqrt, Real.sin, Real.cos, Real.arccos⟩ M (Real.pi / 2) 3 [0, 0, 1] [0, 0, 1]
    (by rw [m00, m11, m22]; norm_num [Real.arccos_zero])
    (by dsimp only; rw [h9]; norm_num)
    (by rw [m12, m21, m20, m02, m01, m10, ← hU]; norm_num)
    (by rw [hmag]; norm_num)]
  simp only [Matrix4.Row, Mult_apply, Vector.idx, List.getD_cons_zero, List.getD_cons_succ,
    Rotate_row3, Rotate_col3, r00, r01, r02, r10, r11, r12, r20, r21, r22,
    m00, m01, m02, m03, m10, m11, m12, m13, m20, m21, m22, m23, m30, m31, m32, m33,
    Magnitude_four]
  simp


/-- The upper-left entries of `Scale(s).Mult(Rotate(a, t)).Mult(Translate(p))`: row `i` of
the rotation matrix times the scale component `i`. -/
theorem Compose_entries (fm : FloatMath α) (s0 s1 s2 x y z t p0 p1 p2 : α) (M : Matrix4 α)
    (hM : M = Matrix4.Mult (Matrix4.Mult (Scale s0 s1 s2) (Rotate fm x y z t))
      (Translate p0 p1 p2)) :
    M 0 0 = s0 * Rotate fm x y z t 0 0 ∧ M 0 1 = s0 * Rotate fm x y z t 0 1
      ∧ M 0 2 = s0 * Rotate fm x y z t 0 2
      ∧ M 1 0 = s1 * Rotate fm x y z t 1 0 ∧ M 1 1 = s1 * Rotate fm x y z t 1 1
      ∧ M 1 2 = s1 * Rotate fm x y z t 1 2
      ∧ M 2 0 = s2 * Rotate fm x y z t 2 0 ∧ M 2 1 = s2 * Rotate fm x y z t 2 1
      ∧ M 2 2 = s2 * Rotate fm x y z t 2 2 := by
  subst hM
  refine ⟨?_, ?_, ?_, ?_, ?_, ?_, ?_, ?_, ?_⟩ <;>
    simp only [Mult_apply, Scale_apply, Translate_apply, Rotate_row3, Rotate_col3] <;>
    simp

/-- For a unit axis and scale one, the trace argument and the skew magnitude that
`Decompose` computes are `cos t` and `2 |sin t|`, and the skew differences are the axis
components times `2 sin t`. -/
theorem Compose_unit_facts (a0 a1 a2 t p0 p1 p2 : ℝ) (ha : a0 * a0 + a1 * a1 + a2 * a2 = 1)
    (M : Matrix4 ℝ)
    (hM : M = Matrix4.Mult (Matrix4.Mult (Scale 1 1 1) (Rotate ⟨Real.sqrt, Real.sin, Real.cos, Real.arccos⟩ a0 a1 a2 t))
      (Translate p0 p1 p2)) :
    (M 0 0 + M 1 1 + M 2 2 - 1) / 2 = Real.cos t
      ∧ Real.sqrt ((M 2 1 - M 1 2) ^ 2 + (M 0 2 - M 2 0) ^ 2 + (M 1 0 - M 0 1) ^ 2)
          = 2 * |Real.sin t|
      ∧ M 1 2 - M 2 1 = a0 * (2 * Real.sin t)
      ∧ M 2 0 - M 0 2 = a1 * (2 * Real.sin t)
      ∧ M 0 1 - M 1 0 = a2 * (2 * Real.sin t) := by
  have hR := Rotate_entries ⟨Real.sqrt, Real.sin, Real.cos, Real.arccos⟩ a0 a1 a2 t a0 a1 a2 (Unit_of_unit a0 a1 a2 ha)
  dsimp only at hR
  obtain ⟨r00, r01, r02, r10, r11, r12, r20, r21, r22⟩ := hR
  obtain ⟨m00, m01, m02, m10, m11, m12, m20, m21, m22⟩ :=
    Compose_entries ⟨Real.sqrt, Real.sin, Real.cos, Real.arccos⟩ 1 1 1 a0 a1 a2 t p0 p1 p2 M hM
  rw [r00] at m00
  rw [r01] at m01
  rw [r02] at m02
  rw [r10] at m10
  rw [r11] at m11
  rw [r12] at m12
  rw [r20] at m20
  rw [r21] at m21
  rw [r22] at m22
  refine ⟨?_, ?_, ?_, ?_, ?_⟩
  · rw [m00, m11, m22]
    linear_combination ((1 - Real.cos t) / 2) * ha
  · rw [show (M 2 1 - M 1 2) ^ 2 + (M 0 2 - M 2 0) ^ 2 + (M 1 0 - M 0 1) ^ 2
        = (2 * Real.sin t) ^ 2 by
      rw [m21, m12, m02, m20, m10, m01]
      linear_combination (4 * Real.sin t ^ 2) * ha]
    rw [Real.sqrt_sq_eq_abs, abs_mul, abs_two]
  · rw [m12, m21]
    ring
  · rw [m20, m02]
    ring
  · rw [m01, m10]
    ring


/-- A unit vector scaled by a factor `k` whose absolute value reaches the tolerance of `Unit`
is normalised to the vector times the sign of `k`. -/
theorem Unit_scaled (a0 a1 a2 k : ℝ) (ha : a0 * a0 + a1 * a1 + a2 * a2 = 1)
    (hk : 1 / 100000000 ≤ |k|) :
    Vector.Unit ⟨Real.sqrt, Real.sin, Real.cos, Real.arccos⟩ [a0 * k, a1 * k, a2 * k]
      = [a0 * (k / |k|), a1 * (k / |k|), a2 * (k / |k|)] := by
  have hm : Vector.Magnitude ⟨Real.sqrt, Real.sin, Real.cos, Real.arccos⟩ [a0 * k, a1 * k, a2 * k] = |k| := by
    rw [Magnitude_three, show a0 * k * (a0 * k) + a1 * k * (a1 * k) + a2 * k * (a2 * k) = k ^ 2 by
      linear_combination (k ^ 2) * ha, Real.sqrt_sq_eq_abs]
  simp only [Vector.Unit, hm, if_neg (not_lt.mpr hk), List.map_cons, List.map_nil, mul_div_assoc]

/-- When `sin t = 0`, `Decompose` finds no skew part and returns the Y axis, with the angle
`arccos (cos t)`. -/
theorem Decompose_of_sin_zero (a0 a1 a2 t p0 p1 p2 : ℝ)
    (ha : a0 * a0 + a1 * a1 + a2 * a2 = 1) (hs : Real.sin t = 0) :
    (Matrix4.Decompose ⟨Real.sqrt, Real.sin, Real.cos, Real.arccos⟩ (Matrix4.Mult (Matrix4.Mult (Scale 1 1 1) (Rotate ⟨Real.sqrt, Real.sin, Real.cos, Real.arccos⟩ a0 a1 a2 t))
        (Translate p0 p1 p2))).2.2
      = NewAxisAngle [0, 1, 0] (Real.arccos (Real.cos t)) := by
  obtain ⟨M, hM⟩ : ∃ M, M = Matrix4.Mult (Matrix4.Mult (Scale 1 1 1) (Rotate ⟨Real.sqrt, Real.sin, Real.cos, Real.arccos⟩ a0 a1 a2 t))
      (Translate p0 p1 p2) := ⟨_, rfl⟩
  rw [← hM]
  obtain ⟨harg, hsq, d0, d1, d2⟩ := Compose_unit_facts a0 a1 a2 t p0 p1 p2 ha M hM
  have hz : Vector.Magnitude ⟨Real.sqrt, Real.sin, Real.cos, Real.arccos⟩ [(0 : ℝ), 0, 0] = 0 := by
    rw [Magnitude_three]
    norm_num
  rw [Decompose_eq ⟨Real.sqrt, Real.sin, Real.cos, Real.arccos⟩ M (Real.arccos (Real.cos t)) 1 [0, 0, 0] [0, 1, 0]
    (by
      dsimp only
      rw [harg, if_neg]
      push_neg
      exact ⟨Real.neg_one_le_cos t, Real.cos_le_one t⟩)
    (by
      dsimp only
      rw [hsq, hs]
      norm_num)
    (by
      rw [d0, d1, d2, hs]
      simp only [Vector.Unit]
      norm_num)
    (by
      rw [hz]
      simp)]


/-- When `|sin t|` is at least `5e-9`, `Decompose` returns the axis times the sign `e` of
`sin t`, with the angle `arccos (cos t)`. -/
theorem Decompose_of_sin_large (a0 a1 a2 t p0 p1 p2 : ℝ)
    (ha : a0 * a0 + a1 * a1 + a2 * a2 = 1) (ht : 1 / 200000000 ≤ |Real.sin t|) :
    ∃ e : ℝ, e * e = 1 ∧ e * |Real.sin t| = Real.sin t
      ∧ (Matrix4.Decompose ⟨Real.sqrt, Real.sin, Real.cos, Real.arccos⟩ (Matrix4.Mult (Matrix4.Mult (Scale 1 1 1)
          (Rotate ⟨Real.sqrt, Real.sin, Real.cos, Real.arccos⟩ a0 a1 a2 t)) (Translate p0 p1 p2))).2.2
        = NewAxisAngle [a0 * e, a1 * e, a2 * e] (Real.arccos (Real.cos t)) := by
  obtain ⟨M, hM⟩ : ∃ M, M = Matrix4.Mult (Matrix4.Mult (Scale 1 1 1) (Rotate ⟨Real.sqrt, Real.sin, Real.cos, Real.arccos⟩ a0 a1 a2 t))
      (Translate p0 p1 p2) := ⟨_, rfl⟩
  rw [← hM]
  obtain ⟨harg, hsq, d0, d1, d2⟩ := Compose_unit_facts a0 a1 a2 t p0 p1 p2 ha M hM
  have hspos : 0 < |Real.sin t| := by linarith
  obtain ⟨D, hD⟩ : ∃ D : ℝ, D = if abs (2 * abs (Real.sin t)) ≤ 1 / 10000 then 1
      else 2 * |Real.sin t| := ⟨_, rfl⟩
  have hDpos : 0 < D := by
    rw [hD]
    split_ifs <;> linarith
  have habsk : |2 * Real.sin t / D| = 2 * |Real.sin t| / D := by
    rw [abs_div, abs_mul, abs_two, abs_of_pos hDpos]
  have hk : 1 / 100000000 ≤ |2 * Real.sin t / D| := by
    rw [habsk, hD]
    split_ifs with h
    · rw [div_one]
      linarith
    · rw [div_self (by linarith)]
      norm_num
  have hkpos : 0 < |2 * Real.sin t / D| := by linarith
  have hee : 2 * Real.sin t / D / |2 * Real.sin t / D| * (2 * Real.sin t / D / |2 * Real.sin t / D|)
      = 1 := by
    rw [div_mul_div_comm, abs_mul_abs_self]
    exact div_self (ne_of_gt (by
      have := mul_pos hkpos hkpos
      rwa [abs_mul_abs_self] at this))
  have hes : 2 * Real.sin t / D / |2 * Real.sin t / D| * |Real.sin t| = Real.sin t := by
    rw [habsk]
    field_simp
    ring
  refine ⟨2 * Real.sin t / D / |2 * Real.sin t / D|, hee, hes, ?_⟩
  have hone : Vector.Magnitude ⟨Real.sqrt, Real.sin, Real.cos, Real.arccos⟩ [a0 * (2 * Real.sin t / D / |2 * Real.sin t / D|),
      a1 * (2 * Real.sin t / D / |2 * Real.sin t / D|),
      a2 * (2 * Real.sin t / D / |2 * Real.sin t / D|)] = 1 := by
    rw [Magnitude_three, Real.sqrt_eq_one]
    generalize 2 * Real.sin t / D / |2 * Real.sin t / D| = e at hee
    linear_combination (e * e) * ha + hee
  rw [Decompose_eq ⟨Real.sqrt, Real.sin, Real.cos, Real.arccos⟩ M (Real.arccos (Real.cos t)) D
    [a0 * (2 * Real.sin t / D / |2 * Real.sin t / D|),
      a1 * (2 * Real.sin t / D / |2 * Real.sin t / D|),
      a2 * (2 * Real.sin t / D / |2 * Real.sin t / D|)]
    [a0 * (2 * Real.sin t / D / |2 * Real.sin t / D|),
      a1 * (2 * Real.sin t / D / |2 * Real.sin t / D|),
      a2 * (2 * Real.sin t / D / |2 * Real.sin t / D|)]
    (by
      dsimp only
      rw [harg, if_neg]
      push_neg
      exact ⟨Real.neg_one_le_cos t, Real.cos_le_one t⟩)
    (by
      dsimp only
      rw [hsq, hD])
    (by
      rw [d0, d1, d2, mul_div_assoc a0, mul_div_assoc a1, mul_div_assoc a2]
      exact (Unit_scaled a0 a1 a2 _ ha hk).symm)
    (by
      rw [hone]
      norm_num)]


/-- Where `Decompose` does recover the rotation: for scale `(1, 1, 1)`, every position, every
unit axis `a` and every angle `t` with `|sin t|` at least `5e-9` (the skew part then clears
the tolerance of `Unit`) or with `cos t = 1` (no rotation), the axis-angle returned for
`Scale(1,1,1).Mult(Rotate(a, t)).Mult(Translate(p))` builds the same matrix as `Rotate(a, t)`. -/
theorem Decompose_rotation (a0 a1 a2 t p0 p1 p2 : ℝ)
    (ha : Vector.Magnitude ⟨Real.sqrt, Real.sin, Real.cos, Real.arccos⟩ [a0, a1, a2] = 1)
    (ht : 1 / 200000000 ≤ |Real.sin t| ∨ Real.cos t = 1) :
    AxisAngle.toMatrix4 ⟨Real.sqrt, Real.sin, Real.cos, Real.arccos⟩
        (Matrix4.Decompose ⟨Real.sqrt, Real.sin, Real.cos, Real.arccos⟩ (Matrix4.Mult (Matrix4.Mult (Scale 1 1 1)
          (Rotate ⟨Real.sqrt, Real.sin, Real.cos, Real.arccos⟩ a0 a1 a2 t)) (Translate p0 p1 p2))).2.2
      = Rotate ⟨Real.sqrt, Real.sin, Real.cos, Real.arccos⟩ a0 a1 a2 t := by
  rw [Magnitude_three, Real.sqrt_eq_one] at ha
  have hR := Rotate_entries ⟨Real.sqrt, Real.sin, Real.cos, Real.arccos⟩ a0 a1 a2 t a0 a1 a2 (Unit_of_unit a0 a1 a2 ha)
  dsimp only at hR
  obtain ⟨r00, r01, r02, r10, r11, r12, r20, r21, r22⟩ := hR
  rcases ht with ht | ht
  · obtain ⟨e, hee, hes, hd⟩ := Decompose_of_sin_large a0 a1 a2 t p0 p1 p2 ha ht
    rw [hd]
    have hU2 : Vector.Unit ⟨Real.sqrt, Real.sin, Real.cos, Real.arccos⟩ [a0 * e, a1 * e, a2 * e] = [a0 * e, a1 * e, a2 * e] :=
      Unit_of_unit _ _ _ (by linear_combination (e * e) * ha + hee)
    have hQ := Rotate_entries ⟨Real.sqrt, Real.sin, Real.cos, Real.arccos⟩ (a0 * e) (a1 * e) (a2 * e) (Real.arccos (Real.cos t))
      (a0 * e) (a1 * e) (a2 * e) hU2
    dsimp only at hQ
    have hsin : Real.sqrt (1 - Real.cos t ^ 2) = |Real.sin t| := by
      rw [show 1 - Real.cos t ^ 2 = Real.sin t ^ 2 by
        linarith [Real.sin_sq_add_cos_sq t], Real.sqrt_sq_eq_abs]
    rw [Real.cos_arccos (Real.neg_one_le_cos t) (Real.cos_le_one t), Real.sin_arccos, hsin] at hQ
    obtain ⟨q00, q01, q02, q10, q11, q12, q20, q21, q22⟩ := hQ
    simp only [AxisAngle.toMatrix4, NewAxisAngle, Vector.idx, List.getD_cons_zero,
      List.getD_cons_succ]
    apply Matrix4_ext
    case h00 => rw [q00, r00]; linear_combination ((1 - Real.cos t) * a0 * a0) * hee
    case h01 => rw [q01, r01]; linear_combination ((1 - Real.cos t) * a0 * a1) * hee + a2 * hes
    case h02 => rw [q02, r02]; linear_combination ((1 - Real.cos t) * a2 * a0) * hee - a1 * hes
    case h10 => rw [q10, r10]; linear_combination ((1 - Real.cos t) * a0 * a1) * hee - a2 * hes
    case h11 => rw [q11, r11]; linear_combination ((1 - Real.cos t) * a1 * a1) * hee
    case h12 => rw [q12, r12]; linear_combination ((1 - Real.cos t) * a1 * a2) * hee + a0 * hes
    case h20 => rw [q20, r20]; linear_combination ((1 - Real.cos t) * a2 * a0) * hee + a1 * hes
    case h21 => rw [q21, r21]; linear_combination ((1 - Real.cos t) * a1 * a2) * hee - a0 * hes
    case h22 => rw [q22, r22]; linear_combination ((1 - Real.cos t) * a2 * a2) * hee
    all_goals simp only [Rotate_row3, Rotate_col3]
  · have hs0 : Real.sin t = 0 := by
      have h := Real.sin_sq_add_cos_sq t
      rw [ht] at h
      exact pow_eq_zero_iff (two_ne_zero) |>.mp (by linarith)
    rw [Decompose_of_sin_zero a0 a1 a2 t p0 p1 p2 ha hs0, ht, Real.arccos_one]
    have hQ := Rotate_entries ⟨Real.sqrt, Real.sin, Real.cos, Real.arccos⟩ 0 1 0 0 0 1 0 (Unit_of_unit 0 1 0 (by norm_num))
    dsimp only at hQ
    obtain ⟨q00, q01, q02, q10, q11, q12, q20, q21, q22⟩ := hQ
    simp only [AxisAngle.toMatrix4, NewAxisAngle, Vector.idx, List.getD_cons_zero,
      List.getD_cons_succ]
    apply Matrix4_ext <;>
      simp only [q00, q01, q02, q10, q11, q12, q20, q21, q22, r00, r01, r02, r10, r11, r12,
        r20, r21, r22, Rotate_row3, Rotate_col3, ht, hs0, Real.cos_zero, Real.sin_zero] <;>
      norm_num

/-- C6, the code at a scaled transform: for the scale `(2, 2, 2)`, a rotation by 90 degrees
about Z and the position `(0, 0, 0)`, `Decompose` reads the angle from the trace of the
scaled matrix and returns the axis `(0, 0, 1)` with the angle `π / 3`, 60 degrees, which
builds another matrix than `Rotate(0, 0, 1, π / 2)`. -/
theorem Decompose_rotation_scaled :
    (Matrix4.Decompose ⟨Real.sqrt, Real.sin, Real.cos, Real.arccos⟩
        (Matrix4.Mult (Matrix4.Mult (Scale 2 2 2)
          (Rotate ⟨Real.sqrt, Real.sin, Real.cos, Real.arccos⟩ 0 0 1 (Real.pi / 2)))
          (Translate 0 0 0))).2.2 = NewAxisAngle [0, 0, 1] (Real.pi / 3)
      ∧ AxisAngle.toMatrix4 ⟨Real.sqrt, Real.sin, Real.cos, Real.arccos⟩
          (Matrix4.Decompose ⟨Real.sqrt, Real.sin, Real.cos, Real.arccos⟩
            (Matrix4.Mult (Matrix4.Mult (Scale 2 2 2)
              (Rotate ⟨Real.sqrt, Real.sin, Real.cos, Real.arccos⟩ 0 0 1 (Real.pi / 2)))
              (Translate 0 0 0))).2.2
        ≠ Rotate ⟨Real.sqrt, Real.sin, Real.cos, Real.arccos⟩ 0 0 1 (Real.pi / 2) := by
  have hU : Vector.Unit ⟨Real.sqrt, Real.sin, Real.cos, Real.arccos⟩ [(0 : ℝ), 0, 1]
      = [0, 0, 1] := Unit_of_unit 0 0 1 (by norm_num)
  have hR := Rotate_entries ⟨Real.sqrt, Real.sin, Real.cos, Real.arccos⟩ 0 0 1 (Real.pi / 2)
    0 0 1 hU
  simp only [Real.cos_pi_div_two, Real.sin_pi_div_two] at hR
  norm_num at hR
  obtain ⟨r00, r01, r02, r10, r11, r12, r20, r21, r22⟩ := hR
  obtain ⟨M, hM⟩ : ∃ M, M = Matrix4.Mult (Matrix4.Mult (Scale 2 2 2)
      (Rotate ⟨Real.sqrt, Real.sin, Real.cos, Real.arccos⟩ 0 0 1 (Real.pi / 2)))
      (Translate 0 0 0) := ⟨_, rfl⟩
  rw [← hM]
  obtain ⟨m00, m01, m02, m10, m11, m12, m20, m21, m22⟩ :=
    Compose_entries ⟨Real.sqrt, Real.sin, Real.cos, Real.arccos⟩ 2 2 2 0 0 1 (Real.pi / 2)
      0 0 0 M hM
  rw [r00] at m00
  rw [r01] at m01
  rw [r02] at m02
  rw [r10] at m10
  rw [r11] at m11
  rw [r12] at m12
  rw [r20] at m20
  rw [r21] at m21
  rw [r22] at m22
  have h4 : Real.sqrt ((M 2 1 - M 1 2) ^ 2 + (M 0 2 - M 2 0) ^ 2 + (M 1 0 - M 0 1) ^ 2) = 4 := by
    rw [m21, m12, m02, m20, m10, m01,
      show ((2 : ℝ) * 0 - 2 * 0) ^ 2 + (2 * 0 - 2 * 0) ^ 2 + (2 * -1 - 2 * 1) ^ 2 = 4 ^ 2 by
        norm_num,
      Real.sqrt_sq (by norm_num)]
  have hmag : Vector.Magnitude ⟨Real.sqrt, Real.sin, Real.cos, Real.arccos⟩ [(0 : ℝ), 0, 1]
      = 1 := by
    rw [Magnitude_three]
    norm_num
  have hacos : Real.arccos (1 / 2) = Real.pi / 3 := by
    rw [← Real.cos_pi_div_three]
    exact Real.arccos_cos (by positivity) (by linarith [Real.pi_pos])
  have hd : (Matrix4.Decompose ⟨Real.sqrt, Real.sin, Real.cos, Real.arccos⟩ M).2.2
      = NewAxisAngle [0, 0, 1] (Real.pi / 3) := by
    rw [Decompose_eq ⟨Real.sqrt, Real.sin, Real.cos, Real.arccos⟩ M (Real.pi / 3) 4 [0, 0, 1]
      [0, 0, 1]
      (by
        dsimp only
        rw [m00, m11, m22, ← hacos]
        norm_num)
      (by
        dsimp only
        rw [h4]
        norm_num)
      (by
        rw [m12, m21, m20, m02, m01, m10, ← hU]
        norm_num)
      (by
        rw [hmag]
        norm_num)]
  refine ⟨hd, fun h => ?_⟩
  rw [hd] at h
  have h00 := congrFun (congrFun h 0) 0
  simp only [AxisAngle.toMatrix4, NewAxisAngle, Vector.idx, List.getD_cons_zero,
    List.getD_cons_succ] at h00
  rw [(Rotate_entries ⟨Real.sqrt, Real.sin, Real.cos, Real.arccos⟩ 0 0 1 (Real.pi / 3) 0 0 1
    hU).1, r00] at h00
  simp only [Real.cos_pi_div_three] at h00
  norm_num at h00

/-- Inserting into a list adds the element and nothing else. -/
theorem insertStable_perm {β : Type} (less : β → β → Bool) (x : β) (l : List β) :
    (insertStable less x l).Perm (x :: l) := by
  induction l with
  | nil => exact List.Perm.refl _
  | cons y ys ih =>
    unfold insertStable
    split
    · exact (List.Perm.cons y ih).trans (List.Perm.swap x y ys)
    · exact List.Perm.refl _

/-- The stable sort permutes its input. -/
theorem SliceStable_perm {β : Type} (less : β → β → Bool) (l : List β) :
    (SliceStable less l).Perm l := by
  induction l with
  | nil => exact List.Perm.refl _
  | cons x xs ih =>
    unfold SliceStable
    exact (insertStable_perm less x _).trans (List.Perm.cons x ih)

/-- Insertion keeps a list ordered by a transitive relation that `less` decides. -/
theorem insertStable_pairwise {β : Type} (less : β → β → Bool) (R : β → β → Prop)
    (hlt : ∀ a b, less b a = true → R b a) (hge : ∀ a b, less b a = false → R a b)
    (htrans : ∀ a b c, R a b → R b c → R a c) (x : β) (l : List β)
    (hl : l.Pairwise R) : (insertStable less x l).Pairwise R := by
  induction l with
  | nil => simp [insertStable]
  | cons y ys ih =>
    rw [List.pairwise_cons] at hl
    unfold insertStable
    by_cases h : less y x = true
    · rw [if_pos h, List.pairwise_cons]
      refine ⟨fun z hz => ?_, ih hl.2⟩
      rcases List.mem_cons.mp ((insertStable_perm less x ys).mem_iff.mp hz) with hzx | hzy
      · rw [hzx]
        exact hlt x y h
      · exact hl.1 z hzy
    · rw [if_neg h, List.pairwise_cons]
      have hxy : R x y := hge x y (by simpa using h)
      refine ⟨fun z hz => ?_, List.pairwise_cons.mpr hl⟩
      rcases List.mem_cons.mp hz with hzy | hzy
      · rw [hzy]
        exact hxy
      · exact htrans x y z hxy (hl.1 z hzy)

/-- The stable sort orders its input. -/
theorem SliceStable_pairwise {β : Type} (less : β → β → Bool) (R : β → β → Prop)
    (hlt : ∀ a b, less b a = true → R b a) (hge : ∀ a b, less b a = false → R a b)
    (htrans : ∀ a b c, R a b → R b c → R a c) (l : List β) :
    (SliceStable less l).Pairwise R := by
  induction l with
  | nil => simp [SliceStable]
  | cons x xs ih =>
    unfold SliceStable
    exact insertStable_pairwise less R hlt hge htrans x _ ih

/-- Two permutations of one another with equal images under a map that is injective on
their elements are equal. -/
theorem eq_of_perm_of_map_eq {β γ : Type} (key : β → γ) :
    ∀ l1 l2 : List β, l1.Perm l2 → l1.map key = l2.map key →
      (∀ a ∈ l1, ∀ b ∈ l1, key a = key b → a = b) → l1 = l2 := by
  intro l1
  induction l1 with
  | nil =>
    intro l2 hp _ _
    exact hp.nil_eq
  | cons a as ih =>
    intro l2 hp hmap hinj
    cases l2 with
    | nil => exact absurd hp.length_eq (by simp)
    | cons b bs =>
      simp only [List.map_cons, List.cons.injEq] at hmap
      have hb : b ∈ a :: as := hp.symm.subset (List.mem_cons_self _ _)
      have hab : a = b := hinj a (List.mem_cons_self _ _) b hb hmap.1
      subst hab
      rw [ih bs (List.Perm.cons_inv hp) hmap.2
        (fun x hx y hy => hinj x (List.mem_cons_of_mem _ hx) y (List.mem_cons_of_mem _ hy))]

/-- A triangle is determined by its ID. -/
theorem Triangle_ext (t u : Triangle) (h : t.ID = u.ID) : t = u := by
  cases t
  cases u
  simp only [Triangle.mk.injEq]
  exact h

/-- The loop of `TransformedVertices`: when the bit set holds the IDs of the triangles
collected so far and these are distinct, the result has distinct IDs and consists of the
triangles collected so far and the triangles of the remaining vertices. -/
theorem collectTris_spec (vs : List (Vertex α)) :
    ∀ (set : List Nat) (acc : List Triangle),
      (∀ n, n ∈ set ↔ ∃ t ∈ acc, t.ID = n) → (acc.map Triangle.ID).Nodup →
      ((collectTris vs set acc).map Triangle.ID).Nodup
        ∧ ∀ t, t ∈ collectTris vs set acc ↔ t ∈ acc ∨ ∃ v ∈ vs, v.triangle = t := by
  induction vs with
  | nil =>
    intro set acc _ hnd
    exact ⟨hnd, fun t => by simp [collectTris]⟩
  | cons v vs ih =>
    intro set acc hset hnd
    unfold collectTris
    by_cases h : v.triangle.ID ∈ set
    · have hc : (!set.contains v.triangle.ID) = false := by simp [h]
      rw [hc]
      simp only [Bool.false_eq_true, if_false]
      obtain ⟨h1, h2⟩ := ih set acc hset hnd
      refine ⟨h1, fun t => ?_⟩
      rw [h2 t]
      constructor
      · rintro (ht | ⟨w, hw, hwt⟩)
        · exact Or.inl ht
        · exact Or.inr ⟨w, List.mem_cons_of_mem _ hw, hwt⟩
      · rintro (ht | ⟨w, hw, hwt⟩)
        · exact Or.inl ht
        · rcases List.mem_cons.mp hw with hwv | hwvs
          · obtain ⟨u, hu, huid⟩ := (hset _).mp h
            left
            rw [← hwt, hwv, ← Triangle_ext u v.triangle huid]
            exact hu
          · exact Or.inr ⟨w, hwvs, hwt⟩
    · have hc : (!set.contains v.triangle.ID) = true := by simp [h]
      rw [hc]
      simp only [if_true]
      have hset2 : ∀ n, n ∈ v.triangle.ID :: set ↔ ∃ t ∈ acc ++ [v.triangle], t.ID = n := by
        intro n
        rw [List.mem_cons, hset n]
        constructor
        · rintro (hn | ⟨u, hu, hun⟩)
          · exact ⟨v.triangle, by simp, hn.symm⟩
          · exact ⟨u, by simp [hu], hun⟩
        · rintro ⟨u, hu, hun⟩
          rcases List.mem_append.mp hu with hu | hu
          · exact Or.inr ⟨u, hu, hun⟩
          · left
            rw [← hun, List.mem_singleton.mp hu]
      have hnd2 : ((acc ++ [v.triangle]).map Triangle.ID).Nodup := by
        rw [List.map_append, List.map_cons, List.map_nil]
        refine List.Nodup.append hnd (List.nodup_singleton _) ?_
        intro n hn hn2
        rw [List.mem_singleton] at hn2
        obtain ⟨u, hu, hun⟩ := List.mem_map.mp hn
        exact h ((hset _).mpr ⟨u, hu, hun.trans hn2⟩)
      obtain ⟨h1, h2⟩ := ih _ _ hset2 hnd2
      refine ⟨h1, fun t => ?_⟩
      rw [h2 t]
      constructor
      · rintro (ht | ⟨w, hw, hwt⟩)
        · rcases List.mem_append.mp ht with ht | ht
          · exact Or.inl ht
          · exact Or.inr ⟨v, List.mem_cons_self _ _, (List.mem_singleton.mp ht).symm⟩
        · exact Or.inr ⟨w, List.mem_cons_of_mem _ hw, hwt⟩
      · rintro (ht | ⟨w, hw, hwt⟩)
        · exact Or.inl (List.mem_append_left _ ht)
        · rcases List.mem_cons.mp hw with hwv | hwvs
          · left
            rw [← hwt, hwv]
            simp
          · exact Or.inr ⟨w, hwvs, hwt⟩

/-- The list that `TransformedVertices` returns is the loop run on a permutation of the
vertices with their `transformed` positions refreshed. -/
theorem TransformedVertices_snd (fm : FloatMath α) (model : Model α) (vpMatrix : Matrix4 α)
    (viewPos : Vector α) :
    ∃ sorted : List (Vertex α),
      sorted.Perm (model.Mesh.sortedVertices.map (fun vert =>
        { vert with transformed :=
            Matrix4.MultVecW (Matrix4.Mult (model.Transform fm) vpMatrix) vert.Position }))
        ∧ (model.TransformedVertices fm vpMatrix viewPos).2 = collectTris sorted [] [] := by
  cases h : model.SortTrisBackToFront
  · exact ⟨_, SliceStable_perm _ _, by simp only [Model.TransformedVertices, h]; rfl⟩
  · exact ⟨_, SliceStable_perm _ _, by simp only [Model.TransformedVertices, h]; rfl⟩

/-- C3: for a model whose mesh is well formed (distinct triangle IDs, every triangle owns a
vertex of `sortedVertices`, every vertex belongs to a triangle of the mesh), every
view-projection matrix, viewer position and sort direction, `TransformedVertices` returns
`len(mesh.Triangles)` triangles, every triangle of the mesh exactly once, no ID repeated. -/
theorem TransformedVertices_each_triangle_once (model : Model ℝ) (vpMatrix : Matrix4 ℝ)
    (viewPos : Vector ℝ)
    (hid : (model.Mesh.Triangles.map Triangle.ID).Nodup)
    (hown : ∀ tri ∈ model.Mesh.Triangles, ∃ v ∈ model.Mesh.sortedVertices, v.triangle = tri)
    (hmem : ∀ v ∈ model.Mesh.sortedVertices, v.triangle ∈ model.Mesh.Triangles) :
    (model.TransformedVertices ⟨Real.sqrt, Real.sin, Real.cos, Real.arccos⟩ vpMatrix viewPos).2.length = model.Mesh.Triangles.length
      ∧ (model.TransformedVertices ⟨Real.sqrt, Real.sin, Real.cos, Real.arccos⟩ vpMatrix viewPos).2.Perm model.Mesh.Triangles
      ∧ ((model.TransformedVertices ⟨Real.sqrt, Real.sin, Real.cos, Real.arccos⟩ vpMatrix viewPos).2.map Triangle.ID).Nodup := by
  obtain ⟨sorted, hperm, hout⟩ := TransformedVertices_snd ⟨Real.sqrt, Real.sin, Real.cos, Real.arccos⟩ model vpMatrix viewPos
  obtain ⟨hnd, hmemout⟩ := collectTris_spec sorted [] [] (by simp) (by simp)
  rw [hout]
  have hp : (collectTris sorted [] []).Perm model.Mesh.Triangles := by
    rw [List.perm_ext_iff_of_nodup (List.Nodup.of_map _ hnd) (List.Nodup.of_map _ hid)]
    intro t
    rw [hmemout t]
    constructor
    · rintro (ht | ⟨w, hw, hwt⟩)
      · simp at ht
      · obtain ⟨v, hv, hvw⟩ := List.mem_map.mp (hperm.mem_iff.mp hw)
        rw [← hwt, ← hvw]
        exact hmem v hv
    · intro ht
      obtain ⟨v, hv, hvt⟩ := hown t ht
      exact Or.inr ⟨_, hperm.mem_iff.mpr (List.mem_map.mpr ⟨v, hv, rfl⟩), hvt⟩
  exact ⟨hp.length_eq, hp, hnd⟩


/-- Witness of `TransformedVertices_each_triangle_once`: the model `twoTriangleModel`, the
identity as view-projection matrix and the viewer at `(0, 0, 5)`. -/
theorem TransformedVertices_each_triangle_once_witness :
    ((twoTriangleModel : Model ℝ).Mesh.Triangles.map Triangle.ID).Nodup
      ∧ (∀ tri ∈ (twoTriangleModel : Model ℝ).Mesh.Triangles,
          ∃ v ∈ (twoTriangleModel : Model ℝ).Mesh.sortedVertices, v.triangle = tri)
      ∧ (∀ v ∈ (twoTriangleModel : Model ℝ).Mesh.sortedVertices,
          v.triangle ∈ (twoTriangleModel : Model ℝ).Mesh.Triangles)
      ∧ ((twoTriangleModel : Model ℝ).TransformedVertices ⟨Real.sqrt, Real.sin, Real.cos, Real.arccos⟩ NewMatrix4 [0, 0, 5]).2.length
        = (twoTriangleModel : Model ℝ).Mesh.Triangles.length
      ∧ ((twoTriangleModel : Model ℝ).TransformedVertices ⟨Real.sqrt, Real.sin, Real.cos, Real.arccos⟩ NewMatrix4 [0, 0, 5]).2.Perm
          (twoTriangleModel : Model ℝ).Mesh.Triangles
      ∧ (((twoTriangleModel : Model ℝ).TransformedVertices ⟨Real.sqrt, Real.sin, Real.cos, Real.arccos⟩ NewMatrix4
          [0, 0, 5]).2.map Triangle.ID).Nodup :=
  have h1 : ((twoTriangleModel : Model ℝ).Mesh.Triangles.map Triangle.ID).Nodup := by
    simp [twoTriangleModel]
  have h2 : ∀ tri ∈ (twoTriangleModel : Model ℝ).Mesh.Triangles,
      ∃ v ∈ (twoTriangleModel : Model ℝ).Mesh.sortedVertices, v.triangle = tri := by
    simp [twoTriangleModel, vertexA, vertexB]
  have h3 : ∀ v ∈ (twoTriangleModel : Model ℝ).Mesh.sortedVertices,
      v.triangle ∈ (twoTriangleModel : Model ℝ).Mesh.Triangles := by
    simp [twoTriangleModel, vertexA, vertexB]
  ⟨h1, h2, h3, TransformedVertices_each_triangle_once twoTriangleModel NewMatrix4 [0, 0, 5]
    h1 h2 h3⟩

/-- The model-view-projection matrix of a model with the transform of `NewModel` under the
identity view-projection matrix is the identity. -/
theorem Transform_Mult_identity (model : Model ℝ) (hP : model.Position = [0, 0, 0])
    (hS : model.Scale = [1, 1, 1]) (hR : model.Rotation = NewAxisAngle [0, 1, 0] 0) :
    Matrix4.Mult (model.Transform ⟨Real.sqrt, Real.sin, Real.cos, Real.arccos⟩) NewMatrix4 = NewMatrix4 := by
  have hQ := Rotate_entries ⟨Real.sqrt, Real.sin, Real.cos, Real.arccos⟩ 0 1 0 0 0 1 0 (Unit_of_unit 0 1 0 (by norm_num))
  dsimp only at hQ
  rw [Real.cos_zero, Real.sin_zero] at hQ
  obtain ⟨q00, q01, q02, q10, q11, q12, q20, q21, q22⟩ := hQ
  apply Matrix4_ext <;>
    simp only [Model.Transform, hP, hS, hR, NewAxisAngle, Vector.idx, List.getD_cons_zero,
      List.getD_cons_succ, Mult_apply, Scale_apply, Translate_apply, Rotate_row3, Rotate_col3,
      NewMatrix4_apply, q00, q01, q02, q10, q11, q12, q20, q21, q22] <;>
    simp

/-- The distance from a viewer on the X axis to a transformed point on the X axis. -/
theorem Magnitude_fastSub_x (x a : ℝ) :
    Vector.Magnitude ⟨Real.sqrt, Real.sin, Real.cos, Real.arccos⟩ (fastSub [x, 0, 0, 1] [a, 0, 0]) = |x - a| := by
  simp only [fastSub, Vector.idx, List.getD_cons_zero, List.getD_cons_succ]
  rw [Magnitude_three, show (x - a) * (x - a) + (0 - 0) * (0 - 0) + (0 - 0) * (0 - 0)
    = (x - a) ^ 2 by ring, Real.sqrt_sq_eq_abs]


/-- One call of `TransformedVertices` on a model with the transform of `NewModel`, the
back-to-front sort and two vertices on the X axis that belong to different triangles, for
a viewer on the X axis: the vertex `w` moves to the front exactly when it is farther away. -/
theorem TransformedVertices_two (model : Model ℝ) (hP : model.Position = [0, 0, 0])
    (hS : model.Scale = [1, 1, 1]) (hR : model.Rotation = NewAxisAngle [0, 1, 0] 0)
    (hF : model.SortTrisBackToFront = true) (v w : Vertex ℝ) (x y a : ℝ)
    (hv : v.Position = [x, 0, 0]) (hw : w.Position = [y, 0, 0])
    (hsv : model.Mesh.sortedVertices = [v, w]) (hne : v.triangle.ID ≠ w.triangle.ID) :
    model.TransformedVertices ⟨Real.sqrt, Real.sin, Real.cos, Real.arccos⟩ NewMatrix4 [a, 0, 0]
      = if |y - a| > |x - a| then
          ({ model with
              Mesh := { model.Mesh with sortedVertices :=
                [{ w with transformed := [y, 0, 0, 1] }, { v with transformed := [x, 0, 0, 1] }] }
              closestTris := [w.triangle, v.triangle] },
           [w.triangle, v.triangle])
        else
          ({ model with
              Mesh := { model.Mesh with sortedVertices :=
                [{ v with transformed := [x, 0, 0, 1] }, { w with transformed := [y, 0, 0, 1] }] }
              closestTris := [v.triangle, w.triangle] },
           [v.triangle, w.triangle]) := by
  have hW : ∀ z : ℝ, Matrix4.MultVecW (NewMatrix4 : Matrix4 ℝ) [z, 0, 0] = [z, 0, 0, 1] := by
    intro z
    simp [Matrix4.MultVecW, NewMatrix4_apply, Vector.idx]
  have hne2 : w.triangle.ID ≠ v.triangle.ID := fun h => hne h.symm
  simp only [Model.TransformedVertices, Transform_Mult_identity model hP hS hR, hF, hsv,
    List.map_cons, List.map_nil, hv, hw, hW, if_true, SliceStable, insertStable,
    Magnitude_fastSub_x]
  by_cases h : |y - a| > |x - a|
  · simp [h, collectTris, hne, hne2]
  · simp [h, collectTris, hne, hne2]


/-- C8, counterexample: two runs on `twoTriangleModel` with the same transform, the identity
view-projection matrix and the viewer at `(0, 0, 0)`, at distance 1 from both vertices,
return the triangle IDs `1, 0` after an earlier call with the viewer at `(5, 0, 0)` and
`0, 1` after an earlier call with the viewer at `(-5, 0, 0)`. -/
theorem TransformedVertices_order_depends_on_earlier_call :
    ((((twoTriangleModel : Model ℝ).TransformedVertices ⟨Real.sqrt, Real.sin, Real.cos, Real.arccos⟩ NewMatrix4
        [5, 0, 0]).1.TransformedVertices ⟨Real.sqrt, Real.sin, Real.cos, Real.arccos⟩ NewMatrix4 [0, 0, 0]).2.map Triangle.ID = [1, 0])
      ∧ ((((twoTriangleModel : Model ℝ).TransformedVertices ⟨Real.sqrt, Real.sin, Real.cos, Real.arccos⟩ NewMatrix4
        [-5, 0, 0]).1.TransformedVertices ⟨Real.sqrt, Real.sin, Real.cos, Real.arccos⟩ NewMatrix4 [0, 0, 0]).2.map Triangle.ID
          = [0, 1]) := by
  have e1 := TransformedVertices_two twoTriangleModel rfl rfl rfl rfl vertexA vertexB 1 (-1) 5
    rfl rfl rfl (by simp [vertexA, vertexB])
  rw [if_pos (by rw [abs_of_neg (by norm_num), abs_of_neg (by norm_num)]; norm_num)] at e1
  have e2 := TransformedVertices_two twoTriangleModel rfl rfl rfl rfl vertexA vertexB 1 (-1) (-5)
    rfl rfl rfl (by simp [vertexA, vertexB])
  rw [if_neg (by rw [abs_of_pos (by norm_num), abs_of_pos (by norm_num)]; norm_num)] at e2
  rw [e1, e2]
  constructor
  · rw [TransformedVertices_two _ rfl rfl rfl rfl _ _ (-1) 1 0 rfl rfl rfl
      (by simp [vertexA, vertexB])]
    rw [if_neg (by norm_num)]
    rfl
  · rw [TransformedVertices_two _ rfl rfl rfl rfl _ _ 1 (-1) 0 rfl rfl rfl
      (by simp [vertexA, vertexB])]
    rw [if_neg (by norm_num)]
    rfl


/-- The stable sort by a real key returns the same list for two permutations of a list
whose keys are distinct; `R` is the order that `less` decides on the keys. -/
theorem SliceStable_eq_of_perm {β : Type} (key : β → ℝ) (less : β → β → Bool)
    (R : ℝ → ℝ → Prop) (hanti : ∀ a b, R a b → R b a → a = b)
    (htrans : ∀ a b c, R a b → R b c → R a c)
    (hlt : ∀ a b, less b a = true → R (key b) (key a))
    (hge : ∀ a b, less b a = false → R (key a) (key b))
    (l1 l2 : List β) (hp : l1.Perm l2) (hnd : (l1.map key).Nodup) :
    SliceStable less l1 = SliceStable less l2 := by
  have hs1 := SliceStable_perm less l1
  have hs2 := SliceStable_perm less l2
  have hpp : (SliceStable less l1).Perm (SliceStable less l2) := (hs1.trans hp).trans hs2.symm
  have hsorted : ∀ l, ((SliceStable less l).map key).Sorted R := fun l =>
    List.pairwise_map.mpr
      (SliceStable_pairwise less (fun a b => R (key a) (key b)) hlt hge
        (fun a b c => htrans (key a) (key b) (key c)) l)
  haveI : IsAntisymm ℝ R := ⟨hanti⟩
  have hkeys := List.eq_of_perm_of_sorted (hpp.map key) (hsorted l1) (hsorted l2)
  exact eq_of_perm_of_map_eq key _ _ hpp hkeys
    (fun a ha b hb hab =>
      List.inj_on_of_nodup_map hnd (hs1.mem_iff.mp ha) (hs1.mem_iff.mp hb) hab)

/-- C8, as amended: two runs with equal Position, Scale, Rotation, `vpMatrix`, `viewPos` and
`SortTrisBackToFront` return equal sequences of triangle IDs when `Mesh.sortedVertices`
holds the same vertices in the same order at the start of both runs, or holds the same
vertices in any two orders and no two vertices are at equal distance from the viewer. -/
theorem TransformedVertices_deterministic (model1 model2 : Model ℝ) (vpMatrix : Matrix4 ℝ)
    (viewPos : Vector ℝ)
    (hP : model1.Position = model2.Position) (hS : model1.Scale = model2.Scale)
    (hR : model1.Rotation = model2.Rotation)
    (hF : model1.SortTrisBackToFront = model2.SortTrisBackToFront)
    (h : model1.Mesh.sortedVertices.map (fun v => (v.Position, v.triangle))
          = model2.Mesh.sortedVertices.map (fun v => (v.Position, v.triangle))
        ∨ ((model1.Mesh.sortedVertices.map (fun v => (v.Position, v.triangle))).Perm
              (model2.Mesh.sortedVertices.map (fun v => (v.Position, v.triangle)))
            ∧ (model1.Mesh.sortedVertices.map (fun v => Vector.Magnitude ⟨Real.sqrt, Real.sin, Real.cos, Real.arccos⟩
                (fastSub (Matrix4.MultVecW (Matrix4.Mult (model1.Transform ⟨Real.sqrt, Real.sin, Real.cos, Real.arccos⟩) vpMatrix)
                  v.Position) viewPos))).Nodup)) :
    (model1.TransformedVertices ⟨Real.sqrt, Real.sin, Real.cos, Real.arccos⟩ vpMatrix viewPos).2.map Triangle.ID
      = (model2.TransformedVertices ⟨Real.sqrt, Real.sin, Real.cos, Real.arccos⟩ vpMatrix viewPos).2.map Triangle.ID := by
  have hT : model2.Transform ⟨Real.sqrt, Real.sin, Real.cos, Real.arccos⟩ = model1.Transform ⟨Real.sqrt, Real.sin, Real.cos, Real.arccos⟩ := by
    simp only [Model.TransformedVertices, Model.Transform, hP, hS, hR]
  have hsnd : ∀ model : Model ℝ, (model.TransformedVertices ⟨Real.sqrt, Real.sin, Real.cos, Real.arccos⟩ vpMatrix viewPos).2
      = collectTris
          (if model.SortTrisBackToFront = true then
            SliceStable (fun vi vj => decide (Vector.Magnitude ⟨Real.sqrt, Real.sin, Real.cos, Real.arccos⟩ (fastSub vi.transformed viewPos)
              > Vector.Magnitude ⟨Real.sqrt, Real.sin, Real.cos, Real.arccos⟩ (fastSub vj.transformed viewPos)))
              (model.Mesh.sortedVertices.map (fun vert =>
                { vert with
                    transformed := Matrix4.MultVecW
                      (Matrix4.Mult (model.Transform ⟨Real.sqrt, Real.sin, Real.cos, Real.arccos⟩) vpMatrix) vert.Position }))
          else
            SliceStable (fun vi vj => decide (Vector.Magnitude ⟨Real.sqrt, Real.sin, Real.cos, Real.arccos⟩ (fastSub vi.transformed viewPos)
              < Vector.Magnitude ⟨Real.sqrt, Real.sin, Real.cos, Real.arccos⟩ (fastSub vj.transformed viewPos)))
              (model.Mesh.sortedVertices.map (fun vert =>
                { vert with
                    transformed := Matrix4.MultVecW
                      (Matrix4.Mult (model.Transform ⟨Real.sqrt, Real.sin, Real.cos, Real.arccos⟩) vpMatrix) vert.Position })))
          [] [] := fun _ => rfl
  rw [hsnd model1, hsnd model2, hT, ← hF]
  obtain ⟨W, hW⟩ : ∃ W, W = Matrix4.Mult (model1.Transform ⟨Real.sqrt, Real.sin, Real.cos, Real.arccos⟩) vpMatrix := ⟨_, rfl⟩
  rw [← hW] at h ⊢
  have hv : ∀ sv : List (Vertex ℝ),
      sv.map (fun vert => { vert with transformed := Matrix4.MultVecW W vert.Position })
        = (sv.map (fun v => (v.Position, v.triangle))).map
            (fun q => Vertex.mk q.1 (Matrix4.MultVecW W q.1) q.2) := by
    intro sv
    rw [List.map_map]
    rfl
  rw [hv, hv]
  rcases h with heq | ⟨hperm, hnd⟩
  · rw [heq]
  · have hnd2 : (((model1.Mesh.sortedVertices.map (fun v => (v.Position, v.triangle))).map
        (fun q => Vertex.mk q.1 (Matrix4.MultVecW W q.1) q.2)).map
        (fun w => Vector.Magnitude ⟨Real.sqrt, Real.sin, Real.cos, Real.arccos⟩ (fastSub w.transformed viewPos))).Nodup := by
      rw [List.map_map, List.map_map]
      exact hnd
    have hB := SliceStable_eq_of_perm
      (fun w : Vertex ℝ => Vector.Magnitude ⟨Real.sqrt, Real.sin, Real.cos, Real.arccos⟩ (fastSub w.transformed viewPos))
      (fun vi vj => decide (Vector.Magnitude ⟨Real.sqrt, Real.sin, Real.cos, Real.arccos⟩ (fastSub vi.transformed viewPos)
        > Vector.Magnitude ⟨Real.sqrt, Real.sin, Real.cos, Real.arccos⟩ (fastSub vj.transformed viewPos)))
      (fun a b => a ≥ b) (fun a b hab hba => le_antisymm hba hab)
      (fun a b c hab hbc => le_trans hbc hab)
      (fun a b hab => le_of_lt (of_decide_eq_true hab))
      (fun a b hab => not_lt.mp (of_decide_eq_false hab)) _ _ (hperm.map _) hnd2
    have hA := SliceStable_eq_of_perm
      (fun w : Vertex ℝ => Vector.Magnitude ⟨Real.sqrt, Real.sin, Real.cos, Real.arccos⟩ (fastSub w.transformed viewPos))
      (fun vi vj => decide (Vector.Magnitude ⟨Real.sqrt, Real.sin, Real.cos, Real.arccos⟩ (fastSub vi.transformed viewPos)
        < Vector.Magnitude ⟨Real.sqrt, Real.sin, Real.cos, Real.arccos⟩ (fastSub vj.transformed viewPos)))
      (fun a b => a ≤ b) (fun a b hab hba => le_antisymm hab hba)
      (fun a b c hab hbc => le_trans hab hbc)
      (fun a b hab => le_of_lt (of_decide_eq_true hab))
      (fun a b hab => not_lt.mp (of_decide_eq_false hab)) _ _ (hperm.map _) hnd2
    rw [hB, hA]


/-- Witness of `TransformedVertices_deterministic`: `twoTriangleModel` and the same model
with its vertices swapped, seen from `(5, 0, 0)`, at the distances 4 and 6. -/
theorem TransformedVertices_deterministic_witness :
    ((twoTriangleModel : Model ℝ).Mesh.sortedVertices.map (fun v => (v.Position, v.triangle))).Perm
        ((twoTriangleModelSwapped : Model ℝ).Mesh.sortedVertices.map
          (fun v => (v.Position, v.triangle)))
      ∧ ((twoTriangleModel : Model ℝ).Mesh.sortedVertices.map (fun v => Vector.Magnitude ⟨Real.sqrt, Real.sin, Real.cos, Real.arccos⟩
          (fastSub (Matrix4.MultVecW (Matrix4.Mult ((twoTriangleModel : Model ℝ).Transform ⟨Real.sqrt, Real.sin, Real.cos, Real.arccos⟩)
            NewMatrix4) v.Position) [5, 0, 0]))).Nodup
      ∧ ((twoTriangleModel : Model ℝ).TransformedVertices ⟨Real.sqrt, Real.sin, Real.cos, Real.arccos⟩ NewMatrix4 [5, 0, 0]).2.map
          Triangle.ID
        = ((twoTriangleModelSwapped : Model ℝ).TransformedVertices ⟨Real.sqrt, Real.sin, Real.cos, Real.arccos⟩ NewMatrix4
          [5, 0, 0]).2.map Triangle.ID :=
  have hperm : ((twoTriangleModel : Model ℝ).Mesh.sortedVertices.map
      (fun v => (v.Position, v.triangle))).Perm
      ((twoTriangleModelSwapped : Model ℝ).Mesh.sortedVertices.map
        (fun v => (v.Position, v.triangle))) := List.Perm.swap _ _ _
  have hnd : ((twoTriangleModel : Model ℝ).Mesh.sortedVertices.map (fun v => Vector.Magnitude ⟨Real.sqrt, Real.sin, Real.cos, Real.arccos⟩
      (fastSub (Matrix4.MultVecW (Matrix4.Mult ((twoTriangleModel : Model ℝ).Transform ⟨Real.sqrt, Real.sin, Real.cos, Real.arccos⟩)
        NewMatrix4) v.Position) [5, 0, 0]))).Nodup := by
    have hW : ∀ z : ℝ, Matrix4.MultVecW (NewMatrix4 : Matrix4 ℝ) [z, 0, 0] = [z, 0, 0, 1] := by
      intro z
      simp [Matrix4.MultVecW, NewMatrix4_apply, Vector.idx]
    rw [Transform_Mult_identity twoTriangleModel rfl rfl rfl]
    simp only [twoTriangleModel, vertexA, vertexB, List.map_cons, List.map_nil, hW,
      Magnitude_fastSub_x]
    rw [abs_of_neg (by norm_num), abs_of_neg (by norm_num)]
    norm_num
  ⟨hperm, hnd, TransformedVertices_deterministic twoTriangleModel twoTriangleModelSwapped
    NewMatrix4 [5, 0, 0] rfl rfl rfl rfl (Or.inr ⟨hperm, hnd⟩)⟩


/-- C9: two spheres of radius 1 and scale 1 centred at `(0, 0, 0)` and `(1.5, 0, 0)` intersect
with an MTV of magnitude 0.5 along the X axis; centred at `(0, 0, 0)` and `(3, 0, 0)` they
do not intersect. -/
theorem Sphere_Intersection_reference :
    (∃ r : IntersectionResult ℝ,
        BoundingSphere.Intersection ⟨Real.sqrt, Real.sin, Real.cos, Real.arccos⟩
            { Center := [0, 0, 0], Radius := 1, Scale := 1 }
            { Center := [3 / 2, 0, 0], Radius := 1, Scale := 1 } = some r
          ∧ Vector.Magnitude ⟨Real.sqrt, Real.sin, Real.cos, Real.arccos⟩ r.MTV = 1 / 2 ∧ r.MTV.idx 1 = 0 ∧ r.MTV.idx 2 = 0)
      ∧ BoundingSphere.Intersection ⟨Real.sqrt, Real.sin, Real.cos, Real.arccos⟩
            { Center := [0, 0, 0], Radius := 1, Scale := 1 }
            { Center := [3, 0, 0], Radius := 1, Scale := 1 } = none := by
  have hd : ∀ a : ℝ, 0 < a →
      Vector.Magnitude ⟨Real.sqrt, Real.sin, Real.cos, Real.arccos⟩ (fastSub [(0 : ℝ), 0, 0] [a, 0, 0]) = a := by
    intro a ha
    simp only [fastSub, Vector.idx, List.getD_cons_zero, List.getD_cons_succ]
    rw [Magnitude_three, show (0 - a) * (0 - a) + ((0 : ℝ) - 0) * (0 - 0) + (0 - 0) * (0 - 0)
      = a ^ 2 by ring, Real.sqrt_sq (le_of_lt ha)]
  constructor
  · refine ⟨{ MTV := [-(1 / 2), 0, 0] }, ?_, ?_, ?_, ?_⟩
    · simp only [BoundingSphere.Intersection, hd (3 / 2) (by norm_num)]
      rw [if_pos (by norm_num)]
      have hm := hd (3 / 2) (by norm_num)
      simp only [Vector.Unit, hm]
      rw [if_neg (by norm_num)]
      simp only [fastSub, Vector.idx, List.getD_cons_zero, List.getD_cons_succ, List.map_cons,
        List.map_nil]
      norm_num
    · rw [Magnitude_three, show (-(1 / 2 : ℝ)) * -(1 / 2) + 0 * 0 + 0 * 0 = (1 / 2) ^ 2 by
        norm_num, Real.sqrt_sq (by norm_num)]
    · simp [Vector.idx]
    · simp [Vector.idx]
  · simp only [BoundingSphere.Intersection, hd 3 (by norm_num)]
    rw [if_neg (by norm_num)]


/-- C11: the identity matrix of `NewMatrix4()` is neutral for `Mult` on both sides:
`NewMatrix4().Mult(M) = M` and `M.Mult(NewMatrix4()) = M` for every matrix `M`. -/
theorem NewMatrix4_Mult_neutral (M : Matrix4 ℝ) :
    Matrix4.Mult NewMatrix4 M = M ∧ Matrix4.Mult M NewMatrix4 = M := by
  constructor <;> apply Matrix4_ext <;> simp only [Mult_apply, NewMatrix4_apply] <;> simp

/-- C12: `Translate` and `Scale` encode their single operation: `Translate(x,y,z).MultVec(v)`
is `(v0+x, v1+y, v2+z)`, `Scale(x,y,z).MultVec(v)` is `(x*v0, y*v1, z*v2)`, and every entry
other than the three that each function assigns is the entry of the identity. -/
theorem Translate_Scale_single_operation (x y z v0 v1 v2 : ℝ) (i j : Fin 4) :
    Matrix4.MultVec (Translate x y z) [v0, v1, v2] = [v0 + x, v1 + y, v2 + z]
      ∧ Matrix4.MultVec (Scale x y z) [v0, v1, v2] = [x * v0, y * v1, z * v2]
      ∧ Translate x y z i j
          = (if i = 3 ∧ j = 0 then x else if i = 3 ∧ j = 1 then y
              else if i = 3 ∧ j = 2 then z else NewMatrix4 i j)
      ∧ Scale x y z i j
          = (if i = 0 ∧ j = 0 then x else if i = 1 ∧ j = 1 then y
              else if i = 2 ∧ j = 2 then z else NewMatrix4 i j) := by
  refine ⟨?_, ?_, ?_, ?_⟩
  · simp [Matrix4.MultVec, Translate_apply, Vector.idx]
  · simp [Matrix4.MultVec, Scale_apply, Vector.idx]
  · fin_cases i <;> fin_cases j <;> simp [Translate_apply, NewMatrix4_apply]
  · fin_cases i <;> fin_cases j <;> simp [Scale_apply, NewMatrix4_apply]

/-- C17: `Mult` composes point transforms left to right: when the last column of `A` is
`(0, 0, 0, 1)`, `A.Mult(B).MultVec(v) = B.MultVec(A.MultVec(v))` for every matrix `B` and
point `v`; and the first three components of `MultVecW` are `MultVec`, for every matrix
and vector. -/
theorem Mult_MultVec_left_to_right (A B : Matrix4 ℝ) (v0 v1 v2 : ℝ)
    (hA : A 0 3 = 0 ∧ A 1 3 = 0 ∧ A 2 3 = 0 ∧ A 3 3 = 1) :
    Matrix4.MultVec (Matrix4.Mult A B) [v0, v1, v2]
        = Matrix4.MultVec B (Matrix4.MultVec A [v0, v1, v2])
      ∧ ∀ (M : Matrix4 ℝ) (v : Vector ℝ), (Matrix4.MultVecW M v).take 3 = Matrix4.MultVec M v := by
  obtain ⟨h0, h1, h2, h3⟩ := hA
  constructor
  · simp only [Matrix4.MultVec, Mult_apply, Vector.idx, List.getD_cons_zero,
      List.getD_cons_succ, h0, h1, h2, h3]
    simp only [List.cons.injEq, and_true]
    refine ⟨?_, ?_, ?_⟩ <;> ring
  · intro M v
    simp [Matrix4.MultVecW, Matrix4.MultVec]

/-- Witness of `Mult_MultVec_left_to_right`: a translation followed by a scale. -/
theorem Mult_MultVec_left_to_right_witness :
    ((Translate 1 2 3 : Matrix4 ℝ) 0 3 = 0 ∧ (Translate 1 2 3 : Matrix4 ℝ) 1 3 = 0
        ∧ (Translate 1 2 3 : Matrix4 ℝ) 2 3 = 0 ∧ (Translate 1 2 3 : Matrix4 ℝ) 3 3 = 1)
      ∧ Matrix4.MultVec (Matrix4.Mult (Translate 1 2 3) (Scale 2 2 2)) [(1 : ℝ), 1, 1]
        = Matrix4.MultVec (Scale 2 2 2) (Matrix4.MultVec (Translate 1 2 3) [1, 1, 1]) :=
  have hA : (Translate 1 2 3 : Matrix4 ℝ) 0 3 = 0 ∧ (Translate 1 2 3 : Matrix4 ℝ) 1 3 = 0
      ∧ (Translate 1 2 3 : Matrix4 ℝ) 2 3 = 0 ∧ (Translate 1 2 3 : Matrix4 ℝ) 3 3 = 1 := by
    simp [Translate_apply]
  ⟨hA, (Mult_MultVec_left_to_right (Translate 1 2 3) (Scale 2 2 2) 1 1 1 hA).1⟩

/-- C18, as amended: the method `Matrix4.Rotate(v, angle)` applies no rotation: for every
matrix `M`, every vector `v` of at least three components and every angle it returns `M`
unchanged. -/
theorem Matrix4_Rotate_unchanged (M : Matrix4 ℝ) (v : Vector ℝ) (angle : ℝ)
    (hv : 3 ≤ v.length) : Matrix4.Rotate M v angle = some M := by
  simp only [Matrix4.Rotate, if_neg (not_lt.mpr hv)]
  rfl

/-- Witness of `Matrix4_Rotate_unchanged`: a translation, the vector `(1, 0, 0)` and the
angle 2. -/
theorem Matrix4_Rotate_unchanged_witness :
    3 ≤ ([1, 0, 0] : Vector ℝ).length
      ∧ Matrix4.Rotate (Translate 1 2 3 : Matrix4 ℝ) [1, 0, 0] 2 = some (Translate 1 2 3) :=
  ⟨by decide, Matrix4_Rotate_unchanged (Translate 1 2 3) [1, 0, 0] 2 (by decide)⟩

/-- C16: `Decompose` falls back to the Y axis when the skew part of the matrix vanishes: for
every matrix whose upper-left 3x3 block is symmetric the returned axis is `(0, 1, 0)`, and
the identity decomposes into position `(0,0,0)`, scale `(1,1,1)`, axis `(0,1,0)`, angle 0. -/
theorem Decompose_symmetric_axis (M : Matrix4 ℝ) (h12 : M 1 2 = M 2 1) (h20 : M 2 0 = M 0 2)
    (h01 : M 0 1 = M 1 0) :
    (Matrix4.Decompose ⟨Real.sqrt, Real.sin, Real.cos, Real.arccos⟩ M).2.2.Axis = [0, 1, 0]
      ∧ Matrix4.Decompose ⟨Real.sqrt, Real.sin, Real.cos, Real.arccos⟩ NewMatrix4
        = ([0, 0, 0], [1, 1, 1], NewAxisAngle [0, 1, 0] 0) := by
  have hz : Vector.Magnitude ⟨Real.sqrt, Real.sin, Real.cos, Real.arccos⟩ [(0 : ℝ), 0, 0] = 0 := by
    rw [Magnitude_three]
    norm_num
  have hU : Vector.Unit ⟨Real.sqrt, Real.sin, Real.cos, Real.arccos⟩ [(0 : ℝ), 0, 0]
      = [0, 0, 0] := by
    simp only [Vector.Unit, hz]
    norm_num
  constructor
  · rw [Decompose_eq ⟨Real.sqrt, Real.sin, Real.cos, Real.arccos⟩ M _ 1 [0, 0, 0] [0, 1, 0] rfl
      (by
        dsimp only
        rw [h12, h20, h01]
        norm_num)
      (by
        rw [h12, h20, h01]
        norm_num [hU])
      (by
        rw [hz]
        simp)]
    rfl
  · have hQ := Rotate_entries ⟨Real.sqrt, Real.sin, Real.cos, Real.arccos⟩ 0 1 0 0 0 1 0
      (Unit_of_unit 0 1 0 (by norm_num))
    dsimp only at hQ
    rw [Real.cos_zero, Real.sin_zero] at hQ
    obtain ⟨q00, q01, q02, q10, q11, q12, q20, q21, q22⟩ := hQ
    rw [Decompose_eq ⟨Real.sqrt, Real.sin, Real.cos, Real.arccos⟩ NewMatrix4 0 1 [0, 0, 0]
      [0, 1, 0]
      (by
        simp only [NewMatrix4_apply]
        norm_num [Real.arccos_one])
      (by simp [NewMatrix4_apply])
      (by simp [NewMatrix4_apply, hU])
      (by
        rw [hz]
        simp)]
    simp only [Matrix4.Row, Mult_apply, Vector.idx, List.getD_cons_zero, List.getD_cons_succ,
      Rotate_row3, Rotate_col3, NewMatrix4_apply, q00, q01, q02, q10, q11, q12, q20, q21, q22,
      Magnitude_four]
    simp

/-- Witness of `Decompose_symmetric_axis`: the scale matrix `Scale(2, 3, 4)`. -/
theorem Decompose_symmetric_axis_witness :
    ((Scale 2 3 4 : Matrix4 ℝ) 1 2 = (Scale 2 3 4 : Matrix4 ℝ) 2 1
        ∧ (Scale 2 3 4 : Matrix4 ℝ) 2 0 = (Scale 2 3 4 : Matrix4 ℝ) 0 2
        ∧ (Scale 2 3 4 : Matrix4 ℝ) 0 1 = (Scale 2 3 4 : Matrix4 ℝ) 1 0)
      ∧ (Matrix4.Decompose ⟨Real.sqrt, Real.sin, Real.cos, Real.arccos⟩
          (Scale 2 3 4)).2.2.Axis = [0, 1, 0] :=
  have h12 : (Scale 2 3 4 : Matrix4 ℝ) 1 2 = (Scale 2 3 4 : Matrix4 ℝ) 2 1 := by
    simp [Scale_apply]
  have h20 : (Scale 2 3 4 : Matrix4 ℝ) 2 0 = (Scale 2 3 4 : Matrix4 ℝ) 0 2 := by
    simp [Scale_apply]
  have h01 : (Scale 2 3 4 : Matrix4 ℝ) 0 1 = (Scale 2 3 4 : Matrix4 ℝ) 1 0 := by
    simp [Scale_apply]
  ⟨⟨h12, h20, h01⟩, (Decompose_symmetric_axis (Scale 2 3 4) h12 h20 h01).1⟩

/-- C13, the code at the eye `(0, 0, 5)` looking at the origin with up `(0, 1, 0)`:
`LookAt(eye, center, up).MultVec(eye)` is `(0, 0, 5)`, not the origin, because `LookAt`
writes the translation into column 3 while `MultVec` reads it from row 3; on the transposed
matrix `MultVec` does send the eye to the origin. -/
theorem LookAt_MultVec_eye :
    Matrix4.MultVec (LookAt ⟨Real.sqrt, Real.sin, Real.cos, Real.arccos⟩
        [0, 0, 5] [0, 0, 0] [0, 1, 0]) [0, 0, 5] = [0, 0, 5]
      ∧ Matrix4.MultVec (Matrix4.Transposed (LookAt ⟨Real.sqrt, Real.sin, Real.cos, Real.arccos⟩
        [0, 0, 5] [0, 0, 0] [0, 1, 0])) [0, 0, 5] = [0, 0, 0] := by
  have hz : Vector.Unit ⟨Real.sqrt, Real.sin, Real.cos, Real.arccos⟩
      (Vector.Sub [(0 : ℝ), 0, 5] [0, 0, 0]) = [0, 0, 1] := by
    have hm : Vector.Magnitude ⟨Real.sqrt, Real.sin, Real.cos, Real.arccos⟩ [(0 : ℝ), 0, 5]
        = 5 := by
      rw [Magnitude_three, show (0 : ℝ) * 0 + 0 * 0 + 5 * 5 = 5 ^ 2 by norm_num,
        Real.sqrt_sq (by norm_num)]
    have hs : Vector.Sub [(0 : ℝ), 0, 5] [0, 0, 0] = [0, 0, 5] := by
      simp [Vector.Sub]
    rw [hs]
    simp only [Vector.Unit, hm]
    norm_num
  have hx : Vector.Unit ⟨Real.sqrt, Real.sin, Real.cos, Real.arccos⟩
      (Vector.Cross [(0 : ℝ), 1, 0] [0, 0, 1]) = [1, 0, 0] := by
    have hc : Vector.Cross [(0 : ℝ), 1, 0] [0, 0, 1] = [1, 0, 0] := by
      simp [Vector.Cross, Vector.idx]
    rw [hc]
    exact Unit_of_unit 1 0 0 (by norm_num)
  have hy : Vector.Cross [(0 : ℝ), 0, 1] [1, 0, 0] = [0, 1, 0] := by
    simp [Vector.Cross, Vector.idx]
  constructor
  · simp only [LookAt, hz, hx, hy, Matrix4.MultVec]
    simp [Vector.idx, Vector.Dot, Matrix.vecHead, Matrix.vecTail]
  · simp only [LookAt, hz, hx, hy, Matrix4.MultVec, Matrix4.Transposed]
    simp [Vector.idx, Vector.Dot, Matrix.vecHead, Matrix.vecTail]

/-- C14, as amended: for every fovy, near, far and viewWidth, every viewHeight different from
0 and every `k` different from 0, `Perspective` returns the same matrix for the viewport
`(k*viewWidth, k*viewHeight)` as for `(viewWidth, viewHeight)`; and when viewWidth and
`tan(fovy*π/360)` are different from 0, the entries `[0][2]` and `[1][2]` are 0 and the entry
`[1][1]` is the entry `[0][0]` times `viewWidth / viewHeight`. -/
theorem Perspective_aspect (fovy near far viewWidth viewHeight k : ℝ) (hh : viewHeight ≠ 0)
    (hk : k ≠ 0) :
    Perspective Real.tan Real.pi fovy near far (k * viewWidth) (k * viewHeight)
        = Perspective Real.tan Real.pi fovy near far viewWidth viewHeight
      ∧ (viewWidth ≠ 0 → Real.tan (fovy * Real.pi / 360) ≠ 0 →
          Perspective Real.tan Real.pi fovy near far viewWidth viewHeight 0 2 = FloatVal.fin 0
            ∧ Perspective Real.tan Real.pi fovy near far viewWidth viewHeight 1 2
              = FloatVal.fin 0
            ∧ Perspective Real.tan Real.pi fovy near far viewWidth viewHeight 1 1
              = FloatVal.div (FloatVal.mul
                  (Perspective Real.tan Real.pi fovy near far viewWidth viewHeight 0 0)
                  (FloatVal.fin viewWidth)) (FloatVal.fin viewHeight)) := by
  have hasp : FloatVal.div (FloatVal.fin (k * viewWidth)) (FloatVal.fin (k * viewHeight))
      = FloatVal.div (FloatVal.fin viewWidth) (FloatVal.fin viewHeight) := by
    simp only [FloatVal.div, if_neg hh, if_neg (mul_ne_zero hk hh), mul_div_mul_left _ _ hk]
  constructor
  · simp only [Perspective, hasp]
  · intro hw ht
    have hr : Real.tan (fovy * Real.pi / 360) * (viewWidth / viewHeight) ≠ 0 :=
      mul_ne_zero ht (div_ne_zero hw hh)
    have hr2 : Real.tan (fovy * Real.pi / 360) * (viewWidth / viewHeight)
        + Real.tan (fovy * Real.pi / 360) * (viewWidth / viewHeight) ≠ 0 := by
      intro h
      apply hr
      linarith
    have ht2 : Real.tan (fovy * Real.pi / 360) + Real.tan (fovy * Real.pi / 360) ≠ 0 := by
      intro h
      apply ht
      linarith
    refine ⟨?_, ?_, ?_⟩
    · simp [Perspective, FloatVal.div, FloatVal.mul, FloatVal.add, FloatVal.sub, FloatVal.neg,
        hh, hr2]
    · simp [Perspective, FloatVal.div, FloatVal.mul, FloatVal.add, FloatVal.sub, FloatVal.neg,
        hh, ht2]
    · simp [Perspective, FloatVal.div, FloatVal.mul, FloatVal.add, FloatVal.sub, FloatVal.neg,
        hh, hr2, ht2]
      field_simp
      ring

/-- Witness of `Perspective_aspect`: a field of view of 90 degrees, near 1, far 2, the
viewport 4 by 2 and the factor 3. -/
theorem Perspective_aspect_witness :
    ((2 : ℝ) ≠ 0 ∧ (3 : ℝ) ≠ 0 ∧ (4 : ℝ) ≠ 0 ∧ Real.tan (90 * Real.pi / 360) ≠ 0)
      ∧ Perspective Real.tan Real.pi 90 1 2 (3 * 4) (3 * 2)
        = Perspective Real.tan Real.pi 90 1 2 4 2
      ∧ Perspective Real.tan Real.pi 90 1 2 4 2 0 2 = FloatVal.fin 0
      ∧ Perspective Real.tan Real.pi 90 1 2 4 2 1 2 = FloatVal.fin 0
      ∧ Perspective Real.tan Real.pi 90 1 2 4 2 1 1
        = FloatVal.div (FloatVal.mul (Perspective Real.tan Real.pi 90 1 2 4 2 0 0)
            (FloatVal.fin 4)) (FloatVal.fin 2) :=
  have ht : Real.tan (90 * Real.pi / 360) ≠ 0 := by
    rw [show 90 * Real.pi / 360 = Real.pi / 4 by ring, Real.tan_pi_div_four]
    norm_num
  have h := Perspective_aspect 90 1 2 4 2 3 (by norm_num) (by norm_num)
  ⟨⟨by norm_num, by norm_num, by norm_num, ht⟩, h.1, h.2 (by norm_num) ht⟩

/-- C14, counterexample: for the viewport 0 by 1 (a viewHeight different from 0) the entry
`[0][2]` is `0 / 0`, which is NaN and not 0. -/
theorem Perspective_zero_width :
    (1 : ℝ) ≠ 0
      ∧ Perspective Real.tan Real.pi 90 1 2 0 1 0 2 = FloatVal.nan
      ∧ Perspective Real.tan Real.pi 90 1 2 0 1 0 2 ≠ FloatVal.fin 0 := by
  have h : Perspective Real.tan Real.pi 90 1 2 0 1 0 2 = FloatVal.nan := by
    simp [Perspective, FloatVal.div, FloatVal.mul, FloatVal.add, FloatVal.sub, FloatVal.neg]
  refine ⟨by norm_num, h, ?_⟩
  rw [h]
  exact fun h2 => FloatVal.noConfusion h2

/-- Every number of a list is at most the largest. -/
theorem le_largest (l : List α) (x : α) (hx : x ∈ l) : x ≤ largest l := by
  induction l with
  | nil => simp at hx
  | cons a as ih =>
    cases as with
    | nil =>
      rw [List.mem_singleton] at hx
      rw [hx]
      exact le_refl _
    | cons b bs =>
      rw [largest]
      rcases List.mem_cons.mp hx with h | h
      · rw [h]
        exact le_max_left _ _
      · exact le_trans (ih h) (le_max_right _ _)

/-- The largest number of a list that is not empty is one of its elements. -/
theorem largest_mem (l : List α) (hl : l ≠ []) : largest l ∈ l := by
  induction l with
  | nil => exact absurd rfl hl
  | cons a as ih =>
    cases as with
    | nil => simp [largest]
    | cons b bs =>
      rw [largest]
      rcases max_choice a (largest (b :: bs)) with h | h
      · rw [h]
        exact List.mem_cons_self _ _
      · rw [h]
        exact List.mem_cons_of_mem _ (ih (by simp))

/-- The smallest number of a list is at most every number of the list. -/
theorem smallest_le (l : List α) (x : α) (hx : x ∈ l) : smallest l ≤ x := by
  induction l with
  | nil => simp at hx
  | cons a as ih =>
    cases as with
    | nil =>
      rw [List.mem_singleton] at hx
      rw [hx]
      exact le_refl _
    | cons b bs =>
      rw [smallest]
      rcases List.mem_cons.mp hx with h | h
      · rw [h]
        exact min_le_left _ _
      · exact le_trans (min_le_right _ _) (ih h)

/-- The smallest number of a list that is not empty is one of its elements. -/
theorem smallest_mem (l : List α) (hl : l ≠ []) : smallest l ∈ l := by
  induction l with
  | nil => exact absurd rfl hl
  | cons a as ih =>
    cases as with
    | nil => simp [smallest]
    | cons b bs =>
      rw [smallest]
      rcases min_choice a (smallest (b :: bs)) with h | h
      · rw [h]
        exact List.mem_cons_self _ _
      · rw [h]
        exact List.mem_cons_of_mem _ (ih (by simp))

/-- The loop of `TransformedVertices` on a list `V` of vertices ordered by `R` on their keys:
of two triangles of the result, the earlier one owns a vertex whose key is in relation `R`
to the key of every vertex of the later one.  Stated for the loop resumed after the
vertices `pre`, with the triangles `acc` of `pre` collected. -/
theorem collectTris_pairwise_aux {κ : Type} (key : Vertex α → κ) (R : κ → κ → Prop)
    (V : List (Vertex α)) (hV : V.Pairwise (fun a b => R (key a) (key b)))
    (vs : List (Vertex α)) :
    ∀ (pre : List (Vertex α)) (set : List Nat) (acc : List Triangle),
      V = pre ++ vs → (∀ n, n ∈ set ↔ ∃ t ∈ acc, t.ID = n) →
      (∀ t, t ∈ acc ↔ ∃ v ∈ pre, v.triangle = t) →
      acc.Pairwise (fun t1 t2 => ∃ v1 ∈ V, v1.triangle = t1 ∧
        ∀ v2 ∈ V, v2.triangle = t2 → R (key v1) (key v2)) →
      (collectTris vs set acc).Pairwise (fun t1 t2 => ∃ v1 ∈ V, v1.triangle = t1 ∧
        ∀ v2 ∈ V, v2.triangle = t2 → R (key v1) (key v2)) := by
  induction vs with
  | nil =>
    intro pre set acc _ _ _ hacc
    exact hacc
  | cons v vs ih =>
    intro pre set acc hsplit hset hpre hacc
    have hsplit2 : V = (pre ++ [v]) ++ vs := by
      rw [hsplit, List.append_assoc]
      rfl
    unfold collectTris
    by_cases h : v.triangle.ID ∈ set
    · have hc : (!set.contains v.triangle.ID) = false := by simp [h]
      rw [hc]
      simp only [Bool.false_eq_true, if_false]
      refine ih (pre ++ [v]) set acc hsplit2 hset (fun t => ?_) hacc
      rw [hpre t]
      constructor
      · rintro ⟨w, hw, hwt⟩
        exact ⟨w, List.mem_append_left _ hw, hwt⟩
      · rintro ⟨w, hw, hwt⟩
        rcases List.mem_append.mp hw with hw | hw
        · exact ⟨w, hw, hwt⟩
        · obtain ⟨u, hu, huid⟩ := (hset _).mp h
          rw [List.mem_singleton.mp hw] at hwt
          rw [← hwt, ← Triangle_ext u v.triangle huid]
          exact (hpre u).mp hu
    · have hc : (!set.contains v.triangle.ID) = true := by simp [h]
      rw [hc]
      simp only [if_true]
      have hnot : ∀ w ∈ pre, w.triangle ≠ v.triangle := by
        intro w hw hwt
        exact h ((hset _).mpr ⟨w.triangle, (hpre _).mpr ⟨w, hw, rfl⟩, by rw [hwt]⟩)
      refine ih (pre ++ [v]) (v.triangle.ID :: set) (acc ++ [v.triangle]) hsplit2
        (fun n => ?_) (fun t => ?_) ?_
      · rw [List.mem_cons, hset n]
        constructor
        · rintro (hn | ⟨u, hu, hun⟩)
          · exact ⟨v.triangle, by simp, hn.symm⟩
          · exact ⟨u, by simp [hu], hun⟩
        · rintro ⟨u, hu, hun⟩
          rcases List.mem_append.mp hu with hu | hu
          · exact Or.inr ⟨u, hu, hun⟩
          · left
            rw [← hun, List.mem_singleton.mp hu]
      · rw [List.mem_append, hpre t, List.mem_singleton]
        constructor
        · rintro (⟨w, hw, hwt⟩ | ht)
          · exact ⟨w, List.mem_append_left _ hw, hwt⟩
          · exact ⟨v, by simp, ht.symm⟩
        · rintro ⟨w, hw, hwt⟩
          rcases List.mem_append.mp hw with hw | hw
          · exact Or.inl ⟨w, hw, hwt⟩
          · right
            rw [← hwt, List.mem_singleton.mp hw]
      · rw [List.pairwise_append]
        refine ⟨hacc, List.pairwise_singleton _ _, fun t1 ht1 t2 ht2 => ?_⟩
        rw [List.mem_singleton] at ht2
        obtain ⟨v1, hv1, hv1t⟩ := (hpre t1).mp ht1
        refine ⟨v1, by rw [hsplit]; exact List.mem_append_left _ hv1, hv1t, fun v2 hv2 hv2t => ?_⟩
        rw [hsplit] at hV hv2
        rcases List.mem_append.mp hv2 with hv2p | hv2s
        · exact absurd (hv2t.trans ht2) (hnot v2 hv2p)
        · exact (List.pairwise_append.mp hV).2.2 v1 hv1 v2 hv2s

/-- The triangles returned by the loop over a list `sorted` that permutes the refreshed
vertices and is ordered by `R` on the distances: of two triangles of the result the earlier
one has a distance in relation `R` to every distance of the later one, and the later one
has a distance. -/
theorem collectTris_distances (model : Model ℝ) (vpMatrix : Matrix4 ℝ) (viewPos : Vector ℝ)
    (R : ℝ → ℝ → Prop) (sorted : List (Vertex ℝ))
    (hperm : sorted.Perm (model.Mesh.sortedVertices.map (fun vert =>
      { vert with
          transformed := Matrix4.MultVecW
            (Matrix4.Mult (model.Transform ⟨Real.sqrt, Real.sin, Real.cos, Real.arccos⟩)
              vpMatrix) vert.Position })))
    (hsorted : sorted.Pairwise (fun a b =>
      R (Vector.Magnitude ⟨Real.sqrt, Real.sin, Real.cos, Real.arccos⟩
          (fastSub a.transformed viewPos))
        (Vector.Magnitude ⟨Real.sqrt, Real.sin, Real.cos, Real.arccos⟩
          (fastSub b.transformed viewPos)))) :
    (collectTris sorted [] []).Pairwise (fun t1 t2 =>
      (∃ x ∈ model.triangleDistances ⟨Real.sqrt, Real.sin, Real.cos, Real.arccos⟩ vpMatrix
          viewPos t1,
        ∀ y ∈ model.triangleDistances ⟨Real.sqrt, Real.sin, Real.cos, Real.arccos⟩ vpMatrix
          viewPos t2, R x y)
      ∧ model.triangleDistances ⟨Real.sqrt, Real.sin, Real.cos, Real.arccos⟩ vpMatrix
          viewPos t2 ≠ []) := by
  have hto : ∀ v ∈ sorted,
      Vector.Magnitude ⟨Real.sqrt, Real.sin, Real.cos, Real.arccos⟩ (fastSub v.transformed viewPos)
        ∈ model.triangleDistances ⟨Real.sqrt, Real.sin, Real.cos, Real.arccos⟩ vpMatrix viewPos
          v.triangle := by
    intro v hv
    obtain ⟨u, hu, huv⟩ := List.mem_map.mp (hperm.mem_iff.mp hv)
    rw [← huv]
    exact List.mem_map.mpr ⟨u, List.mem_filter.mpr ⟨hu, by simp⟩, rfl⟩
  have hfrom : ∀ t, ∀ y ∈ model.triangleDistances ⟨Real.sqrt, Real.sin, Real.cos, Real.arccos⟩
      vpMatrix viewPos t, ∃ v ∈ sorted, v.triangle = t
        ∧ Vector.Magnitude ⟨Real.sqrt, Real.sin, Real.cos, Real.arccos⟩
          (fastSub v.transformed viewPos) = y := by
    intro t y hy
    obtain ⟨u, hu, huy⟩ := List.mem_map.mp hy
    obtain ⟨hu1, hu2⟩ := List.mem_filter.mp hu
    exact ⟨_, hperm.mem_iff.mpr (List.mem_map.mpr ⟨u, hu1, rfl⟩), by simpa using hu2, huy⟩
  obtain ⟨_, hmemout⟩ := collectTris_spec sorted [] [] (by simp) (by simp)
  refine List.Pairwise.imp_of_mem ?_
    (collectTris_pairwise_aux
      (fun v : Vertex ℝ => Vector.Magnitude ⟨Real.sqrt, Real.sin, Real.cos, Real.arccos⟩
        (fastSub v.transformed viewPos)) R sorted hsorted sorted [] [] [] rfl (by simp)
      (by simp) List.Pairwise.nil)
  intro t1 t2 _ ht2 hQ
  obtain ⟨v1, hv1, hv1t, hall⟩ := hQ
  constructor
  · refine ⟨_, hv1t ▸ hto v1 hv1, fun y hy => ?_⟩
    obtain ⟨v2, hv2, hv2t, hv2y⟩ := hfrom t2 y hy
    rw [← hv2y]
    exact hall v2 hv2 hv2t
  · rcases (hmemout t2).mp ht2 with h | ⟨w, hw, hwt⟩
    · simp at h
    · exact List.ne_nil_of_mem (hwt ▸ hto w hw)

/-- C15: the triangles that `TransformedVertices` returns follow the distance sort: with
`SortTrisBackToFront` they are in non-increasing order of the largest distance over each
triangle's vertices, without it in non-decreasing order of the smallest distance. -/
theorem TransformedVertices_follows_sort (model : Model ℝ) (vpMatrix : Matrix4 ℝ)
    (viewPos : Vector ℝ) :
    (model.TransformedVertices ⟨Real.sqrt, Real.sin, Real.cos, Real.arccos⟩ vpMatrix
        viewPos).2.Pairwise (fun t1 t2 =>
      if model.SortTrisBackToFront = true then
        largest (model.triangleDistances ⟨Real.sqrt, Real.sin, Real.cos, Real.arccos⟩ vpMatrix
            viewPos t2)
          ≤ largest (model.triangleDistances ⟨Real.sqrt, Real.sin, Real.cos, Real.arccos⟩
            vpMatrix viewPos t1)
      else
        smallest (model.triangleDistances ⟨Real.sqrt, Real.sin, Real.cos, Real.arccos⟩ vpMatrix
            viewPos t1)
          ≤ smallest (model.triangleDistances ⟨Real.sqrt, Real.sin, Real.cos, Real.arccos⟩
            vpMatrix viewPos t2)) := by
  cases hflag : model.SortTrisBackToFront
  · have hout : (model.TransformedVertices ⟨Real.sqrt, Real.sin, Real.cos, Real.arccos⟩ vpMatrix
        viewPos).2 = collectTris (SliceStable (fun vi vj => decide
          (Vector.Magnitude ⟨Real.sqrt, Real.sin, Real.cos, Real.arccos⟩
              (fastSub vi.transformed viewPos)
            < Vector.Magnitude ⟨Real.sqrt, Real.sin, Real.cos, Real.arccos⟩
              (fastSub vj.transformed viewPos)))
          (model.Mesh.sortedVertices.map (fun vert =>
            { vert with
                transformed := Matrix4.MultVecW
                  (Matrix4.Mult (model.Transform ⟨Real.sqrt, Real.sin, Real.cos, Real.arccos⟩)
                    vpMatrix) vert.Position }))) [] [] := by
      simp only [Model.TransformedVertices, hflag]
      rfl
    rw [hout]
    refine List.Pairwise.imp ?_ (collectTris_distances model vpMatrix viewPos (fun a b => a ≤ b)
      _ (SliceStable_perm _ _)
      (SliceStable_pairwise
        (fun vi vj : Vertex ℝ => decide (Vector.Magnitude ⟨Real.sqrt, Real.sin, Real.cos, Real.arccos⟩ (fastSub vi.transformed viewPos)
          < Vector.Magnitude ⟨Real.sqrt, Real.sin, Real.cos, Real.arccos⟩ (fastSub vj.transformed viewPos)))
        (fun a b : Vertex ℝ => Vector.Magnitude ⟨Real.sqrt, Real.sin, Real.cos, Real.arccos⟩ (fastSub a.transformed viewPos) ≤ Vector.Magnitude ⟨Real.sqrt, Real.sin, Real.cos, Real.arccos⟩ (fastSub b.transformed viewPos))
        (fun a b hab => le_of_lt (of_decide_eq_true hab))
        (fun a b hab => not_lt.mp (of_decide_eq_false hab))
        (fun a b c hab hbc => le_trans hab hbc) _))
    rintro t1 t2 ⟨⟨x, hx, hall⟩, hne⟩
    simp only [Bool.false_eq_true, if_false]
    exact le_trans (smallest_le _ x hx) (hall _ (smallest_mem _ hne))
  · have hout : (model.TransformedVertices ⟨Real.sqrt, Real.sin, Real.cos, Real.arccos⟩ vpMatrix
        viewPos).2 = collectTris (SliceStable (fun vi vj => decide
          (Vector.Magnitude ⟨Real.sqrt, Real.sin, Real.cos, Real.arccos⟩
              (fastSub vi.transformed viewPos)
            > Vector.Magnitude ⟨Real.sqrt, Real.sin, Real.cos, Real.arccos⟩
              (fastSub vj.transformed viewPos)))
          (model.Mesh.sortedVertices.map (fun vert =>
            { vert with
                transformed := Matrix4.MultVecW
                  (Matrix4.Mult (model.Transform ⟨Real.sqrt, Real.sin, Real.cos, Real.arccos⟩)
                    vpMatrix) vert.Position }))) [] [] := by
      simp only [Model.TransformedVertices, hflag]
      rfl
    rw [hout]
    refine List.Pairwise.imp ?_ (collectTris_distances model vpMatrix viewPos (fun a b => b ≤ a)
      _ (SliceStable_perm _ _)
      (SliceStable_pairwise
        (fun vi vj : Vertex ℝ => decide (Vector.Magnitude ⟨Real.sqrt, Real.sin, Real.cos, Real.arccos⟩ (fastSub vi.transformed viewPos)
          > Vector.Magnitude ⟨Real.sqrt, Real.sin, Real.cos, Real.arccos⟩ (fastSub vj.transformed viewPos)))
        (fun a b : Vertex ℝ => Vector.Magnitude ⟨Real.sqrt, Real.sin, Real.cos, Real.arccos⟩ (fastSub b.transformed viewPos) ≤ Vector.Magnitude ⟨Real.sqrt, Real.sin, Real.cos, Real.arccos⟩ (fastSub a.transformed viewPos))
        (fun a b hab => le_of_lt (of_decide_eq_true hab))
        (fun a b hab => not_lt.mp (of_decide_eq_false hab))
        (fun a b c hab hbc => le_trans hbc hab) _))
    rintro t1 t2 ⟨⟨x, hx, hall⟩, hne⟩
    simp only [if_true]
    exact le_trans (hall _ (largest_mem _ hne)) (le_largest _ x hx)

/-- C18, counterexample: on the vector `(1, 2)` of two components the dropped `MultVec` call
reads `v[2]` past the end, and the method returns nothing instead of the matrix. -/
theorem Matrix4_Rotate_short_vector :
    Matrix4.Rotate (NewMatrix4 : Matrix4 ℝ) [1, 2] 0 = none
      ∧ Matrix4.Rotate (NewMatrix4 : Matrix4 ℝ) [1, 2] 0 ≠ some NewMatrix4 := by
  have h : Matrix4.Rotate (NewMatrix4 : Matrix4 ℝ) [1, 2] 0 = none := by
    simp [Matrix4.Rotate]
  refine ⟨h, ?_⟩
  rw [h]
  exact fun h2 => Option.noConfusion h2

end Tetra3d
